import Mathlib

/-!
# rpcx-influxdb: the metrics reporter of `influxdb.go`

A shallow embedding of the reporter (`InfluxDB`, `InfluxDBWithTags`, `makeClient`, `run`,
`send`) together with the properties its specification states about it.

Modelling conventions.

* Go strings are Lean strings; `int64` values are integers (the reporter performs no
  arithmetic on them); a `float64` is kept as its IEEE-754 bit pattern (the reporter performs
  no arithmetic on floats either, it only copies them into points).
* The external collaborators (the InfluxDB write client, the go-metrics registry, the wall
  clock, the ticker) are not re-implemented.  The calls by which the reporter builds a client,
  binds a write API, writes a point and flushes are appended to a log of `Call`s (the channel
  accessor `Errors()` that the `select` evaluates is not logged); the registry is a non-nil
  reference whose current contents are supplied by the environment at each tick; the tag map
  is a value that the host process does not change after construction; the clock is the
  sequence of values that successive `time.Now()` reads return.
* A Go run-time panic is an explicit outcome (`Panic`); the calls made before it stay logged.
  The panics modelled are those of this file's own expressions: an index out of range in
  `ps[0]` .. `ps[5]`, a method call on a nil `wapi`, and `time.NewTicker` on a non-positive
  interval.
-/

namespace influxdb

/-! ## Go values -/

/-- A Go `float64`, represented by its IEEE-754 binary64 bit pattern. -/
structure Float64 where
  bits : Nat
deriving DecidableEq, Repr

/-- Rational value of a bit pattern with sign bit 0 and a normal exponent
(only used to check the constants below against their decimal spelling). -/
def Float64.toRat (x : Float64) : ℚ :=
  ((2 ^ 52 + x.bits % 2 ^ 52 : ℕ) : ℚ) * ((2 ^ (x.bits / 2 ^ 52 % 2 ^ 11) : ℕ) : ℚ)
    / ((2 ^ 1075 : ℕ) : ℚ)

/-- The Go constant `0.5` as a float64. -/
def c0_5 : Float64 := ⟨0x3FE0000000000000⟩
/-- The Go constant `0.75` as a float64. -/
def c0_75 : Float64 := ⟨0x3FE8000000000000⟩
/-- The Go constant `0.95` as a float64. -/
def c0_95 : Float64 := ⟨0x3FEE666666666666⟩
/-- The Go constant `0.99` as a float64. -/
def c0_99 : Float64 := ⟨0x3FEFAE147AE147AE⟩
/-- The Go constant `0.999` as a float64. -/
def c0_999 : Float64 := ⟨0x3FEFF7CED916872B⟩
/-- The Go constant `0.9999` as a float64. -/
def c0_9999 : Float64 := ⟨0x3FEFFF2E48E8A71E⟩

/-- A `time.Time` instant. -/
abbrev Time := Int

/-- A `time.Duration` (signed nanoseconds). -/
abbrev Duration := Int

/-- A Go `map[string]string`; `none` is the nil map, `some l` a map with the entries `l`. -/
abbrev Tags := Option (List (String × String))

/-- Number of entries of a tag map (`len(tags)`); the nil map has none. -/
def Tags.len : Tags → Nat
  | none => 0
  | some l => l.length

/-- An `interface{}` value stored in a field map: the reporter stores `int64` and `float64`. -/
inductive FieldValue where
  | int64 (v : Int)
  | float64 (v : Float64)
deriving DecidableEq, Repr

/-- A `map[string]interface{}` literal, as its key/value entries in source order. -/
abbrev Fields := List (String × FieldValue)

/-- Index expression `m[k]` on a field map. -/
def Fields.get (m : Fields) (k : String) : Option FieldValue :=
  match m with
  | [] => none
  | (k0, v) :: rest => if k = k0 then some v else Fields.get rest k

/-! ## go-metrics snapshots -/

/-- What `metrics.Counter.Snapshot()` exposes. -/
structure CounterSnapshot where
  Count : Int

/-- What `metrics.Gauge.Snapshot()` exposes. -/
structure GaugeSnapshot where
  Value : Int

/-- What `metrics.GaugeFloat64.Snapshot()` exposes. -/
structure GaugeFloat64Snapshot where
  Value : Float64

/-- What `metrics.Histogram.Snapshot()` exposes.  `Percentiles` is an interface method:
any function from the requested quantiles to a result slice. -/
structure HistogramSnapshot where
  Count : Int
  Max : Int
  Mean : Float64
  Min : Int
  StdDev : Float64
  Variance : Float64
  Percentiles : List Float64 → List Float64

/-- What `metrics.Meter.Snapshot()` exposes. -/
structure MeterSnapshot where
  Count : Int
  Rate1 : Float64
  Rate5 : Float64
  Rate15 : Float64
  RateMean : Float64

/-- What `metrics.Timer.Snapshot()` exposes. -/
structure TimerSnapshot where
  Count : Int
  Max : Int
  Mean : Float64
  Min : Int
  StdDev : Float64
  Variance : Float64
  Percentiles : List Float64 → List Float64
  Rate1 : Float64
  Rate5 : Float64
  Rate15 : Float64
  RateMean : Float64

/-- A registered value `i interface{}` as the type switch of `send` sees it, carrying what its
`Snapshot()` returns when it is visited.  The six interfaces are mutually exclusive (each
declares `Snapshot()` with a different result type); `other` is any value matching no case. -/
inductive Metric where
  | Counter (ms : CounterSnapshot)
  | Gauge (ms : GaugeSnapshot)
  | GaugeFloat64 (ms : GaugeFloat64Snapshot)
  | Histogram (ms : HistogramSnapshot)
  | Meter (ms : MeterSnapshot)
  | Timer (ms : TimerSnapshot)
  | other

/-- A `metrics.Registry` reference held by the reporter. -/
structure Registry where
  id : Nat
deriving DecidableEq, Repr

/-- What `Each` of every registry enumerates at one moment: the (name, metric) pairs in
iteration order.  The host process changes it between passes. -/
abbrev RegistryView := Registry → List (String × Metric)

/-! ## The write client -/

/-- A `write.Point` as built by `influxdb2.NewPoint`: its four arguments. -/
structure Point where
  measurement : String
  tags : Tags
  fields : Fields
  ts : Time
deriving DecidableEq, Repr

/-- The call `influxdb2.NewPoint(measurement, tags, fields, ts)`. -/
def NewPoint (measurement : String) (tags : Tags) (fields : Fields) (ts : Time) : Point :=
  { measurement := measurement, tags := tags, fields := fields, ts := ts }

/-- Client options; the reporter only ever uses `influxdb2.DefaultOptions()`. -/
inductive Options where
  | default
deriving DecidableEq, Repr

/-- The call `influxdb2.DefaultOptions()`. -/
def DefaultOptions : Options := Options.default

/-- A client handle: what it was built from. -/
structure Client where
  url : String
  token : String
  opt : Options
deriving DecidableEq, Repr

/-- A write-API handle: the client it belongs to and its (org, bucket) scope. -/
structure WriteAPI where
  client : Client
  org : String
  bucket : String
deriving DecidableEq, Repr

/-- The call `influxdb2.NewClientWithOptions(url, token, opt)`. -/
def NewClientWithOptions (url token : String) (opt : Options) : Client :=
  { url := url, token := token, opt := opt }

/-- The call `client.WriteAPI(org, bucket)`. -/
def Client.WriteAPI (c : Client) (org bucket : String) : WriteAPI :=
  { client := c, org := org, bucket := bucket }

/-- A call made on the client library, as logged. -/
inductive Call where
  | newClientWithOptions (url token : String) (opt : Options)
  | writeAPI (org bucket : String)
  | writePoint (p : Point)
  | flush
deriving DecidableEq, Repr

/-- A Go run-time panic. -/
inductive Panic where
  | indexOutOfRange (index length : Nat)
  | nilDereference
  | nonPositiveInterval
deriving DecidableEq, Repr

/-! ## The reporter -/

/-- The `reporter` struct. `client` and `wapi` are interface values, nil until `makeClient`. -/
structure reporter where
  reg : Registry
  interval : Duration
  url : String
  token : String
  org : String
  bucket : String
  tags : Tags
  client : Option Client
  wapi : Option WriteAPI
deriving DecidableEq, Repr

/-- Substitution of the single string argument for every `%s` verb of a format. -/
def sprintfAux (arg : List Char) : List Char → List Char
  | '%' :: 's' :: rest => arg ++ sprintfAux arg rest
  | c :: rest => c :: sprintfAux arg rest
  | [] => []

/-- The call `fmt.Sprintf(format, name)` for a format whose only verbs are `%s`. -/
def Sprintf (format : String) (name : String) : String :=
  ⟨sprintfAux name.data format.data⟩

/-- Index expression `ps[i]` on a slice: a run-time panic when `i` is out of range. -/
def index (ps : List Float64) (i : Nat) : Except Panic Float64 :=
  match ps[i]? with
  | some x => .ok x
  | none => .error (Panic.indexOutOfRange i ps.length)

/-- The type switch of `send`: evaluation of the argument of `WritePoint` for one registered
value (`none` when no case matches), or the panic raised while evaluating it. -/
def newPointFor (tags : Tags) (name : String) (i : Metric) (now : Time) :
    Except Panic (Option Point) :=
  match i with
  | .Counter ms =>
    .ok (some (NewPoint (Sprintf "%s.count" name) tags
      [("value", .int64 ms.Count)] now))
  | .Gauge ms =>
    .ok (some (NewPoint (Sprintf "%s.gauge" name) tags
      [("value", .int64 ms.Value)] now))
  | .GaugeFloat64 ms =>
    .ok (some (NewPoint (Sprintf "%s.gauge" name) tags
      [("value", .float64 ms.Value)] now))
  | .Histogram ms =>
    let ps := ms.Percentiles [c0_5, c0_75, c0_95, c0_99, c0_999, c0_9999]
    (index ps 0).bind fun p50 =>
    (index ps 1).bind fun p75 =>
    (index ps 2).bind fun p95 =>
    (index ps 3).bind fun p99 =>
    (index ps 4).bind fun p999 =>
    (index ps 5).bind fun p9999 =>
    .ok (some (NewPoint (Sprintf "%s.histogram" name) tags
      [("count", .int64 ms.Count),
       ("max", .int64 ms.Max),
       ("mean", .float64 ms.Mean),
       ("min", .int64 ms.Min),
       ("stddev", .float64 ms.StdDev),
       ("variance", .float64 ms.Variance),
       ("p50", .float64 p50),
       ("p75", .float64 p75),
       ("p95", .float64 p95),
       ("p99", .float64 p99),
       ("p999", .float64 p999),
       ("p9999", .float64 p9999)] now))
  | .Meter ms =>
    .ok (some (NewPoint (Sprintf "%s.meter" name) tags
      [("count", .int64 ms.Count),
       ("m1", .float64 ms.Rate1),
       ("m5", .float64 ms.Rate5),
       ("m15", .float64 ms.Rate15),
       ("mean", .float64 ms.RateMean)] now))
  | .Timer ms =>
    let ps := ms.Percentiles [c0_5, c0_75, c0_95, c0_99, c0_999, c0_9999]
    (index ps 0).bind fun p50 =>
    (index ps 1).bind fun p75 =>
    (index ps 2).bind fun p95 =>
    (index ps 3).bind fun p99 =>
    (index ps 4).bind fun p999 =>
    (index ps 5).bind fun p9999 =>
    .ok (some (NewPoint (Sprintf "%s.timer" name) tags
      [("count", .int64 ms.Count),
       ("max", .int64 ms.Max),
       ("mean", .float64 ms.Mean),
       ("min", .int64 ms.Min),
       ("stddev", .float64 ms.StdDev),
       ("variance", .float64 ms.Variance),
       ("p50", .float64 p50),
       ("p75", .float64 p75),
       ("p95", .float64 p95),
       ("p99", .float64 p99),
       ("p999", .float64 p999),
       ("p9999", .float64 p9999),
       ("m1", .float64 ms.Rate1),
       ("m5", .float64 ms.Rate5),
       ("m15", .float64 ms.Rate15),
       ("meanrate", .float64 ms.RateMean)] now))
  | .other => .ok none

/-- What a piece of the reporter did: the client calls it made, the number of clock reads
performed so far (by anyone), and the panic it stopped with, if any. -/
structure Run where
  calls : List Call
  reads : Nat
  panic : Option Panic
deriving DecidableEq, Repr

/-- The closure that `send` passes to `Each`, run when `n` clock reads have already happened:
it reads the clock (`now := time.Now()`), evaluates the type switch and hands the point to
`r.wapi.WritePoint`. -/
def sendFunc (r : reporter) (clock : Nat → Time) (n : Nat) (name : String) (i : Metric) : Run :=
  let now := clock n
  match newPointFor r.tags name i now with
  | .error e => { calls := [], reads := n + 1, panic := some e }
  | .ok none => { calls := [], reads := n + 1, panic := none }
  | .ok (some p) =>
    match r.wapi with
    | none => { calls := [], reads := n + 1, panic := some Panic.nilDereference }
    | some _ => { calls := [Call.writePoint p], reads := n + 1, panic := none }

/-- The call `reg.Each(f)` over the pairs the registry enumerates: `f` on each pair in
iteration order; a panic in `f` ends the iteration. -/
def Each (f : Nat → String → Metric → Run) : List (String × Metric) → Nat → Run
  | [], n => { calls := [], reads := n, panic := none }
  | (name, i) :: rest, n =>
    let a := f n name i
    match a.panic with
    | some e => { calls := a.calls, reads := a.reads, panic := some e }
    | none =>
      let b := Each f rest a.reads
      { calls := a.calls ++ b.calls, reads := b.reads, panic := b.panic }

/-- The method `send`: one pass over the registry, then `r.wapi.Flush()`. -/
def send (r : reporter) (view : RegistryView) (clock : Nat → Time) (n : Nat) : Run :=
  let a := Each (sendFunc r clock) (view r.reg) n
  match a.panic with
  | some e => { calls := a.calls, reads := a.reads, panic := some e }
  | none =>
    match r.wapi with
    | none => { calls := a.calls, reads := a.reads, panic := some Panic.nilDereference }
    | some _ => { calls := a.calls ++ [Call.flush], reads := a.reads, panic := none }

/-- The method `makeClient`: the reporter after it, and the client calls it made. -/
def makeClient (r : reporter) : reporter × List Call :=
  let opt := DefaultOptions
  let client := NewClientWithOptions r.url r.token opt
  let wapi := client.WriteAPI r.org r.bucket
  ({ r with client := some client, wapi := some wapi },
   [Call.newClientWithOptions r.url r.token opt, Call.writeAPI r.org r.bucket])

/-- An event the `select` of `run` can receive. -/
inductive Event where
  | tick (view : RegistryView)
  | writeError

/-- State of the goroutine executing `run`: the reporter, every client call made since
construction, the number of clock reads so far, and the panic that ended it, if any. -/
structure LoopState where
  rp : reporter
  calls : List Call
  reads : Nat
  panic : Option Panic
deriving DecidableEq, Repr

/-- One iteration of the `for { select { ... } }` of `run` on the received event. -/
def step (clock : Nat → Time) (s : LoopState) : Event → LoopState
  | .tick view =>
    let t := send s.rp view clock s.reads
    { rp := s.rp, calls := s.calls ++ t.calls, reads := t.reads, panic := t.panic }
  | .writeError =>
    let m := makeClient s.rp
    { rp := m.1, calls := s.calls ++ m.2, reads := s.reads, panic := none }

/-- The `for { select { ... } }` of `run` over the events received; a panic ends it.  Entering
the `select` evaluates `r.wapi.Errors()`, a panic when `wapi` is nil; which of the two cases
fires is the environment's choice, given as the next event.  The deferred `intervalTk.Stop()`
touches nothing that is observed here. -/
def loop (clock : Nat → Time) : LoopState → List Event → LoopState
  | s, [] => s
  | s, e :: es =>
    match s.panic with
    | some _ => s
    | none =>
      match s.rp.wapi with
      | none => { s with panic := some Panic.nilDereference }
      | some _ => loop clock (step clock s e) es

/-- The method `run`: `time.NewTicker(r.interval)` panics on a non-positive interval,
otherwise the loop handles the events. -/
def run (clock : Nat → Time) (s : LoopState) (events : List Event) : LoopState :=
  if s.rp.interval ≤ 0 then { s with panic := some Panic.nonPositiveInterval }
  else loop clock s events

/-- The function `InfluxDBWithTags`, observed after the given events have been received. -/
def InfluxDBWithTags (r : Registry) (d : Duration) (url token org bucket : String)
    (tags : Tags) (clock : Nat → Time) (events : List Event) : LoopState :=
  let rp : reporter :=
    { reg := r, interval := d, url := url, token := token, org := org, bucket := bucket,
      tags := tags, client := none, wapi := none }
  let m := makeClient rp
  run clock { rp := m.1, calls := m.2, reads := 0, panic := none } events

/-- The function `InfluxDB`: `InfluxDBWithTags` with nil tags. -/
def InfluxDB (r : Registry) (d : Duration) (url token org bucket : String)
    (clock : Nat → Time) (events : List Event) : LoopState :=
  InfluxDBWithTags r d url token org bucket none clock events

/-! ## The specification's vocabulary

The definitions of this section follow the words of the specification (its table of kinds,
suffixes and fields); the theorems compare them with what the code above does. -/

/-- The six supported kinds of the specification's table. -/
inductive Kind where
  | Counter
  | Gauge
  | GaugeFloat64
  | Histogram
  | Meter
  | Timer
deriving DecidableEq, Repr

/-- Measurement suffix of a kind, from the specification's table. -/
def Kind.suffix : Kind → String
  | .Counter => "count"
  | .Gauge => "gauge"
  | .GaugeFloat64 => "gauge"
  | .Histogram => "histogram"
  | .Meter => "meter"
  | .Timer => "timer"

/-- Kind of a registered value; `none` for a value of no supported kind. -/
def Metric.kind : Metric → Option Kind
  | .Counter _ => some Kind.Counter
  | .Gauge _ => some Kind.Gauge
  | .GaugeFloat64 _ => some Kind.GaugeFloat64
  | .Histogram _ => some Kind.Histogram
  | .Meter _ => some Kind.Meter
  | .Timer _ => some Kind.Timer
  | .other => none

/-- Whether a registered value is of one of the six supported kinds. -/
def Metric.supported (m : Metric) : Bool := m.kind.isSome

/-- The fixed quantile list of the specification: 0.5, 0.75, 0.95, 0.99, 0.999, 0.9999. -/
def specQuantiles : List Float64 := [c0_5, c0_75, c0_95, c0_99, c0_999, c0_9999]

/-- The percentile-length precondition: a Histogram or Timer snapshot answers the request for
the six fixed quantiles with at least six values.  It holds of every other value. -/
def Metric.percentilesOk : Metric → Bool
  | .Histogram ms => decide (6 ≤ (ms.Percentiles specQuantiles).length)
  | .Timer ms => decide (6 ≤ (ms.Percentiles specQuantiles).length)
  | _ => true

/-- Field keys of a kind, from the specification's table. -/
def Kind.keys : Kind → List String
  | .Counter => ["value"]
  | .Gauge => ["value"]
  | .GaugeFloat64 => ["value"]
  | .Histogram => ["count", "max", "mean", "min", "stddev", "variance",
      "p50", "p75", "p95", "p99", "p999", "p9999"]
  | .Meter => ["count", "m1", "m5", "m15", "mean"]
  | .Timer => ["count", "max", "mean", "min", "stddev", "variance",
      "p50", "p75", "p95", "p99", "p999", "p9999", "m1", "m5", "m15", "meanrate"]

/-- Value source of each field key, from the specification's table; the percentile keys map
by position into the answer to the six-quantile request.  No other key has a value. -/
def specValue : Metric → String → Option FieldValue
  | .Counter ms, k => if k = "value" then some (.int64 ms.Count) else none
  | .Gauge ms, k => if k = "value" then some (.int64 ms.Value) else none
  | .GaugeFloat64 ms, k => if k = "value" then some (.float64 ms.Value) else none
  | .Histogram ms, k =>
    if k = "count" then some (.int64 ms.Count)
    else if k = "max" then some (.int64 ms.Max)
    else if k = "mean" then some (.float64 ms.Mean)
    else if k = "min" then some (.int64 ms.Min)
    else if k = "stddev" then some (.float64 ms.StdDev)
    else if k = "variance" then some (.float64 ms.Variance)
    else if k = "p50" then (ms.Percentiles specQuantiles)[0]?.map .float64
    else if k = "p75" then (ms.Percentiles specQuantiles)[1]?.map .float64
    else if k = "p95" then (ms.Percentiles specQuantiles)[2]?.map .float64
    else if k = "p99" then (ms.Percentiles specQuantiles)[3]?.map .float64
    else if k = "p999" then (ms.Percentiles specQuantiles)[4]?.map .float64
    else if k = "p9999" then (ms.Percentiles specQuantiles)[5]?.map .float64
    else none
  | .Meter ms, k =>
    if k = "count" then some (.int64 ms.Count)
    else if k = "m1" then some (.float64 ms.Rate1)
    else if k = "m5" then some (.float64 ms.Rate5)
    else if k = "m15" then some (.float64 ms.Rate15)
    else if k = "mean" then some (.float64 ms.RateMean)
    else none
  | .Timer ms, k =>
    if k = "count" then some (.int64 ms.Count)
    else if k = "max" then some (.int64 ms.Max)
    else if k = "mean" then some (.float64 ms.Mean)
    else if k = "min" then some (.int64 ms.Min)
    else if k = "stddev" then some (.float64 ms.StdDev)
    else if k = "variance" then some (.float64 ms.Variance)
    else if k = "p50" then (ms.Percentiles specQuantiles)[0]?.map .float64
    else if k = "p75" then (ms.Percentiles specQuantiles)[1]?.map .float64
    else if k = "p95" then (ms.Percentiles specQuantiles)[2]?.map .float64
    else if k = "p99" then (ms.Percentiles specQuantiles)[3]?.map .float64
    else if k = "p999" then (ms.Percentiles specQuantiles)[4]?.map .float64
    else if k = "p9999" then (ms.Percentiles specQuantiles)[5]?.map .float64
    else if k = "m1" then some (.float64 ms.Rate1)
    else if k = "m5" then some (.float64 ms.Rate5)
    else if k = "m15" then some (.float64 ms.Rate15)
    else if k = "meanrate" then some (.float64 ms.RateMean)
    else none
  | .other, _ => none

/-! ## Observations on a log of calls -/

/-- The points handed to `WritePoint`, in order. -/
def pointsOf : List Call → List Point
  | [] => []
  | .writePoint p :: rest => p :: pointsOf rest
  | _ :: rest => pointsOf rest

/-- Whether a call is a `Flush`. -/
def Call.isFlush : Call → Bool
  | .flush => true
  | _ => false

/-- Whether a call builds a client (`NewClientWithOptions`). -/
def Call.isNewClient : Call → Bool
  | .newClientWithOptions _ _ _ => true
  | _ => false

/-- Whether a call is a `WritePoint`. -/
def Call.isWritePoint : Call → Bool
  | .writePoint _ => true
  | _ => false

/-- Whether an event is a tick. -/
def Event.isTick : Event → Bool
  | .tick _ => true
  | .writeError => false

/-- Whether an event is a write error. -/
def Event.isWriteError : Event → Bool
  | .tick _ => false
  | .writeError => true

/-- The point, if any, that the type switch builds for one registered value. -/
def pointOf (tags : Tags) (name : String) (i : Metric) (now : Time) : Option Point :=
  match newPointFor tags name i now with
  | .ok o => o
  | .error _ => none

/-- The points of a pass over the given pairs in which no callback panics: the point of each
pair, stamped with the clock read of its own callback. -/
def passPoints (tags : Tags) (clock : Nat → Time) : List (String × Metric) → Nat → List Point
  | [], _ => []
  | (name, i) :: rest, n =>
    (pointOf tags name i (clock n)).toList ++ passPoints tags clock rest (n + 1)

/-- The clock reads made by the callbacks of the supported pairs, in order. -/
def supportedReads (clock : Nat → Time) : List (String × Metric) → Nat → List Time
  | [], _ => []
  | (_, i) :: rest, n =>
    (if i.supported then [clock n] else []) ++ supportedReads clock rest (n + 1)

/-- A point matches the specification's table for the metric registered under a name: its
measurement is the name, a dot and the suffix of the metric's kind; its field keys are those of
the kind; and every key maps to the value source of the table (so no other key is present). -/
def matchesTable (name : String) (m : Metric) (p : Point) : Prop :=
  ∃ k, m.kind = some k ∧ p.measurement = name ++ "." ++ k.suffix ∧
    p.fields.map Prod.fst = k.keys ∧ ∀ key, p.fields.get key = specValue m key

/-- A point without its timestamp: measurement, tags and fields. -/
def Point.untimed (p : Point) : String × Tags × Fields :=
  (p.measurement, p.tags, p.fields)

/-! ## Concrete inputs

Small registries, stub snapshots and a clock, on which the definitions are evaluated. -/

/-- A reporter with the tag env = prod, as `InfluxDBWithTags` leaves it after `makeClient`. -/
def rpProd : reporter :=
  (makeClient
    { reg := ⟨0⟩, interval := 1000000000, url := "http://localhost:8086", token := "secret",
      org := "org", bucket := "metrics", tags := some [("env", "prod")],
      client := none, wapi := none }).1

/-- The write API of `rpProd`. -/
def wProd : WriteAPI :=
  { client := { url := "http://localhost:8086", token := "secret", opt := Options.default },
    org := "org", bucket := "metrics" }

/-- A clock whose successive reads all differ. -/
def clockT : Nat → Time := fun i => 1700000000 + i

/-- A clock that does not advance. -/
def clockFrozen : Nat → Time := fun _ => 1700000000

/-- The scenario of the specification: Counter requests = 42 and Gauge queue_size = 7. -/
def viewScenario : RegistryView :=
  fun _ => [("requests", Metric.Counter ⟨42⟩), ("queue_size", Metric.Gauge ⟨7⟩)]

/-- A stub Histogram snapshot whose `Percentiles` answers with the request itself, so that
every quantile gets its own distinguishable value. -/
def stubHistogram : HistogramSnapshot :=
  { Count := 3, Max := 9, Mean := ⟨11⟩, Min := 1, StdDev := ⟨12⟩, Variance := ⟨13⟩,
    Percentiles := fun qs => qs }

/-- A stub Timer snapshot whose `Percentiles` answers with the request itself; its mean and
its mean rate differ. -/
def stubTimer : TimerSnapshot :=
  { Count := 3, Max := 9, Mean := ⟨11⟩, Min := 1, StdDev := ⟨12⟩, Variance := ⟨13⟩,
    Percentiles := fun qs => qs, Rate1 := ⟨21⟩, Rate5 := ⟨22⟩, Rate15 := ⟨23⟩,
    RateMean := ⟨24⟩ }

/-- A stub Histogram snapshot whose `Percentiles` answers with the empty slice. -/
def shortHistogram : HistogramSnapshot :=
  { Count := 0, Max := 0, Mean := ⟨0⟩, Min := 0, StdDev := ⟨0⟩, Variance := ⟨0⟩,
    Percentiles := fun _ => [] }

/-- A registry holding the stub Histogram. -/
def viewHistogram : RegistryView := fun _ => [("sizes", Metric.Histogram stubHistogram)]

/-- A registry holding the stub Timer. -/
def viewTimer : RegistryView := fun _ => [("latency", Metric.Timer stubTimer)]

/-- A registry holding one Meter. -/
def viewMeter : RegistryView :=
  fun _ => [("hits", Metric.Meter ⟨5, ⟨31⟩, ⟨32⟩, ⟨33⟩, ⟨34⟩⟩)]

/-- A registry holding the Histogram with the empty percentile answer. -/
def viewShort : RegistryView := fun _ => [("sizes", Metric.Histogram shortHistogram)]

/-- A registry holding a value of no supported kind, then a Counter. -/
def viewMixed : RegistryView :=
  fun _ => [("health", Metric.other), ("requests", Metric.Counter ⟨42⟩)]

/-- The registry `viewMixed` without its unsupported value. -/
def viewMixedSupported : RegistryView := fun _ => [("requests", Metric.Counter ⟨42⟩)]

/-- A registry holding a value of no supported kind, then the Histogram with the empty
percentile answer. -/
def viewMixedShort : RegistryView :=
  fun _ => [("health", Metric.other), ("sizes", Metric.Histogram shortHistogram)]

/-- The registry `viewMixedShort` without its unsupported value. -/
def viewMixedShortSupported : RegistryView :=
  fun _ => [("sizes", Metric.Histogram shortHistogram)]

/-- The state of the goroutine of `rpProd` when it enters the loop. -/
def loopStart : LoopState :=
  { rp := rpProd,
    calls := [Call.newClientWithOptions "http://localhost:8086" "secret" Options.default,
      Call.writeAPI "org" "metrics"],
    reads := 0, panic := none }

/-- A tick, a write error and a second tick, all over the scenario registry. -/
def eventsReconnect : List Event :=
  [Event.tick viewScenario, Event.writeError, Event.tick viewScenario]

/-- A tick over the Histogram with the empty percentile answer, then a write error. -/
def eventsShort : List Event := [Event.tick viewShort, Event.writeError]

/-- The Gauge point of the second pass of `eventsReconnect` for the tags env = prod. -/
def gaugeAfterReconnect : Point :=
  { measurement := "queue_size.gauge", tags := some [("env", "prod")],
    fields := [("value", .int64 7)], ts := 1700000003 }

/-- The Gauge point of the second pass of `eventsReconnect` for nil tags. -/
def gaugeAfterReconnectBare : Point :=
  { measurement := "queue_size.gauge", tags := none,
    fields := [("value", .int64 7)], ts := 1700000003 }

/-! ## Basic facts -/

theorem toRat_c0_5 : c0_5.toRat = 1 / 2 := by
  norm_num [Float64.toRat, c0_5]

theorem toRat_c0_75 : c0_75.toRat = 3 / 4 := by
  norm_num [Float64.toRat, c0_75]

/-- Each remaining constant is the double nearest to its decimal spelling: the distance is at
most half a unit in the last place (2^-54 on the binade of 1/2). -/
theorem toRat_nearest :
    |c0_95.toRat - 95 / 100| ≤ 1 / 2 ^ 54 ∧ |c0_99.toRat - 99 / 100| ≤ 1 / 2 ^ 54 ∧
    |c0_999.toRat - 999 / 1000| ≤ 1 / 2 ^ 54 ∧ |c0_9999.toRat - 9999 / 10000| ≤ 1 / 2 ^ 54 := by
  refine ⟨?_, ?_, ?_, ?_⟩ <;>
    · rw [abs_le]
      constructor <;> norm_num [Float64.toRat, c0_95, c0_99, c0_999, c0_9999]

theorem Sprintf_count (name : String) : Sprintf "%s.count" name = name ++ ".count" := by
  apply String.ext
  simp [Sprintf, sprintfAux]

theorem Sprintf_gauge (name : String) : Sprintf "%s.gauge" name = name ++ ".gauge" := by
  apply String.ext
  simp [Sprintf, sprintfAux]

theorem Sprintf_histogram (name : String) :
    Sprintf "%s.histogram" name = name ++ ".histogram" := by
  apply String.ext
  simp [Sprintf, sprintfAux]

theorem Sprintf_meter (name : String) : Sprintf "%s.meter" name = name ++ ".meter" := by
  apply String.ext
  simp [Sprintf, sprintfAux]

theorem Sprintf_timer (name : String) : Sprintf "%s.timer" name = name ++ ".timer" := by
  apply String.ext
  simp [Sprintf, sprintfAux]

theorem six_or_short (ps : List Float64) :
    (∃ a b c d e f rest, ps = a :: b :: c :: d :: e :: f :: rest) ∨ ps.length < 6 := by
  rcases ps with _ | ⟨a, _ | ⟨b, _ | ⟨c, _ | ⟨d, _ | ⟨e, _ | ⟨f, rest⟩⟩⟩⟩⟩⟩ <;> simp

theorem newPointFor_Histogram_six (tags : Tags) (name : String) (ms : HistogramSnapshot)
    (now : Time) (a b c d e f : Float64) (rest : List Float64)
    (h : ms.Percentiles specQuantiles = a :: b :: c :: d :: e :: f :: rest) :
    newPointFor tags name (.Histogram ms) now =
      .ok (some
        { measurement := name ++ ".histogram", tags := tags,
          fields :=
            [("count", .int64 ms.Count), ("max", .int64 ms.Max), ("mean", .float64 ms.Mean),
             ("min", .int64 ms.Min), ("stddev", .float64 ms.StdDev),
             ("variance", .float64 ms.Variance), ("p50", .float64 a), ("p75", .float64 b),
             ("p95", .float64 c), ("p99", .float64 d), ("p999", .float64 e),
             ("p9999", .float64 f)],
          ts := now }) := by
  have h2 : ms.Percentiles [c0_5, c0_75, c0_95, c0_99, c0_999, c0_9999]
      = a :: b :: c :: d :: e :: f :: rest := h
  simp [newPointFor, h2, index, Except.bind, NewPoint, Sprintf_histogram]

theorem newPointFor_Histogram_short (tags : Tags) (name : String) (ms : HistogramSnapshot)
    (now : Time) (h : (ms.Percentiles specQuantiles).length < 6) :
    newPointFor tags name (.Histogram ms) now =
      .error (Panic.indexOutOfRange (ms.Percentiles specQuantiles).length
        (ms.Percentiles specQuantiles).length) := by
  have h2 : ms.Percentiles [c0_5, c0_75, c0_95, c0_99, c0_999, c0_9999]
      = ms.Percentiles specQuantiles := rfl
  simp only [newPointFor, h2]
  generalize ms.Percentiles specQuantiles = ps at h ⊢
  rcases ps with _ | ⟨a, _ | ⟨b, _ | ⟨c, _ | ⟨d, _ | ⟨e, _ | ⟨f, rest⟩⟩⟩⟩⟩⟩ <;>
    simp [index, Except.bind] at h ⊢
  omega


theorem newPointFor_Timer_six (tags : Tags) (name : String) (ms : TimerSnapshot)
    (now : Time) (a b c d e f : Float64) (rest : List Float64)
    (h : ms.Percentiles specQuantiles = a :: b :: c :: d :: e :: f :: rest) :
    newPointFor tags name (.Timer ms) now =
      .ok (some
        { measurement := name ++ ".timer", tags := tags,
          fields :=
            [("count", .int64 ms.Count), ("max", .int64 ms.Max), ("mean", .float64 ms.Mean),
             ("min", .int64 ms.Min), ("stddev", .float64 ms.StdDev),
             ("variance", .float64 ms.Variance), ("p50", .float64 a), ("p75", .float64 b),
             ("p95", .float64 c), ("p99", .float64 d), ("p999", .float64 e),
             ("p9999", .float64 f), ("m1", .float64 ms.Rate1), ("m5", .float64 ms.Rate5),
             ("m15", .float64 ms.Rate15), ("meanrate", .float64 ms.RateMean)],
          ts := now }) := by
  have h2 : ms.Percentiles [c0_5, c0_75, c0_95, c0_99, c0_999, c0_9999]
      = a :: b :: c :: d :: e :: f :: rest := h
  simp [newPointFor, h2, index, Except.bind, NewPoint, Sprintf_timer]

theorem newPointFor_Timer_short (tags : Tags) (name : String) (ms : TimerSnapshot)
    (now : Time) (h : (ms.Percentiles specQuantiles).length < 6) :
    newPointFor tags name (.Timer ms) now =
      .error (Panic.indexOutOfRange (ms.Percentiles specQuantiles).length
        (ms.Percentiles specQuantiles).length) := by
  have h2 : ms.Percentiles [c0_5, c0_75, c0_95, c0_99, c0_999, c0_9999]
      = ms.Percentiles specQuantiles := rfl
  simp only [newPointFor, h2]
  generalize ms.Percentiles specQuantiles = ps at h ⊢
  rcases ps with _ | ⟨a, _ | ⟨b, _ | ⟨c, _ | ⟨d, _ | ⟨e, _ | ⟨f, rest⟩⟩⟩⟩⟩⟩ <;>
    simp [index, Except.bind] at h ⊢
  omega

theorem suffix_append (name s : String) : name ++ "." ++ s = name ++ ("." ++ s) := by
  rw [String.append_assoc]

/-- Shape of every point the type switch builds. -/
theorem newPointFor_shape (tags : Tags) (name : String) (m : Metric) (now : Time) (p : Point)
    (h : newPointFor tags name m now = .ok (some p)) :
    p.tags = tags ∧ p.ts = now ∧
    ∃ k, m.kind = some k ∧ p.measurement = name ++ "." ++ k.suffix ∧
      p.fields.map Prod.fst = k.keys ∧ ∀ key, p.fields.get key = specValue m key := by
  cases m with
  | Counter ms =>
    simp only [newPointFor, NewPoint, Sprintf_count, Except.ok.injEq, Option.some.injEq] at h
    subst h
    refine ⟨rfl, rfl, Kind.Counter, rfl, ?_, rfl, ?_⟩
    · rw [suffix_append]; rfl
    · intro key; simp [Fields.get, specValue]
  | Gauge ms =>
    simp only [newPointFor, NewPoint, Sprintf_gauge, Except.ok.injEq, Option.some.injEq] at h
    subst h
    refine ⟨rfl, rfl, Kind.Gauge, rfl, ?_, rfl, ?_⟩
    · rw [suffix_append]; rfl
    · intro key; simp [Fields.get, specValue]
  | GaugeFloat64 ms =>
    simp only [newPointFor, NewPoint, Sprintf_gauge, Except.ok.injEq, Option.some.injEq] at h
    subst h
    refine ⟨rfl, rfl, Kind.GaugeFloat64, rfl, ?_, rfl, ?_⟩
    · rw [suffix_append]; rfl
    · intro key; simp [Fields.get, specValue]
  | Histogram ms =>
    rcases six_or_short (ms.Percentiles specQuantiles) with
      ⟨a, b, c, d, e, f, rest, hps⟩ | hlt
    · rw [newPointFor_Histogram_six tags name ms now a b c d e f rest hps] at h
      simp only [Except.ok.injEq, Option.some.injEq] at h
      subst h
      refine ⟨rfl, rfl, Kind.Histogram, rfl, ?_, rfl, ?_⟩
      · rw [suffix_append]; rfl
      · intro key; simp [Fields.get, specValue, hps]
    · rw [newPointFor_Histogram_short tags name ms now hlt] at h
      cases h
  | Meter ms =>
    simp only [newPointFor, NewPoint, Sprintf_meter, Except.ok.injEq, Option.some.injEq] at h
    subst h
    refine ⟨rfl, rfl, Kind.Meter, rfl, ?_, rfl, ?_⟩
    · rw [suffix_append]; rfl
    · intro key; simp [Fields.get, specValue]
  | Timer ms =>
    rcases six_or_short (ms.Percentiles specQuantiles) with
      ⟨a, b, c, d, e, f, rest, hps⟩ | hlt
    · rw [newPointFor_Timer_six tags name ms now a b c d e f rest hps] at h
      simp only [Except.ok.injEq, Option.some.injEq] at h
      subst h
      refine ⟨rfl, rfl, Kind.Timer, rfl, ?_, rfl, ?_⟩
      · rw [suffix_append]; rfl
      · intro key; simp [Fields.get, specValue, hps]
    · rw [newPointFor_Timer_short tags name ms now hlt] at h
      cases h
  | other =>
    simp [newPointFor] at h

/-- Under the percentile-length precondition the type switch does not panic. -/
theorem newPointFor_ok (tags : Tags) (name : String) (m : Metric) (now : Time)
    (h : m.percentilesOk = true) :
    newPointFor tags name m now = .ok (pointOf tags name m now) ∧
    (pointOf tags name m now).isSome = m.supported := by
  cases m with
  | Histogram ms =>
    rcases six_or_short (ms.Percentiles specQuantiles) with
      ⟨a, b, c, d, e, f, rest, hps⟩ | hlt
    · simp [pointOf, newPointFor_Histogram_six tags name ms now a b c d e f rest hps,
        Metric.supported, Metric.kind]
    · simp [Metric.percentilesOk] at h
      omega
  | Timer ms =>
    rcases six_or_short (ms.Percentiles specQuantiles) with
      ⟨a, b, c, d, e, f, rest, hps⟩ | hlt
    · simp [pointOf, newPointFor_Timer_six tags name ms now a b c d e f rest hps,
        Metric.supported, Metric.kind]
    · simp [Metric.percentilesOk] at h
      omega
  | _ => simp [pointOf, newPointFor, Metric.supported, Metric.kind]

/-- Without the precondition the type switch panics with an index out of range. -/
theorem newPointFor_error (tags : Tags) (name : String) (m : Metric) (now : Time)
    (h : m.percentilesOk = false) :
    ∃ i l, newPointFor tags name m now = .error (Panic.indexOutOfRange i l) := by
  cases m with
  | Histogram ms =>
    simp [Metric.percentilesOk] at h
    exact ⟨_, _, newPointFor_Histogram_short tags name ms now h⟩
  | Timer ms =>
    simp [Metric.percentilesOk] at h
    exact ⟨_, _, newPointFor_Timer_short tags name ms now h⟩
  | _ => simp [Metric.percentilesOk] at h

theorem newPointFor_none (tags : Tags) (name : String) (m : Metric) (now : Time)
    (h : newPointFor tags name m now = .ok none) : m.supported = false := by
  cases m with
  | Histogram ms =>
    rcases six_or_short (ms.Percentiles specQuantiles) with
      ⟨a, b, c, d, e, f, rest, hps⟩ | hlt
    · rw [newPointFor_Histogram_six tags name ms now a b c d e f rest hps] at h; simp at h
    · rw [newPointFor_Histogram_short tags name ms now hlt] at h; cases h
  | Timer ms =>
    rcases six_or_short (ms.Percentiles specQuantiles) with
      ⟨a, b, c, d, e, f, rest, hps⟩ | hlt
    · rw [newPointFor_Timer_six tags name ms now a b c d e f rest hps] at h; simp at h
    · rw [newPointFor_Timer_short tags name ms now hlt] at h; cases h
  | other => rfl
  | _ => simp [newPointFor] at h

theorem newPointFor_error_supported (tags : Tags) (name : String) (m : Metric) (now : Time)
    (e : Panic) (h : newPointFor tags name m now = .error e) :
    m.supported = true ∧ m.percentilesOk = false := by
  cases hp : m.percentilesOk with
  | true => rw [(newPointFor_ok tags name m now hp).1] at h; cases h
  | false =>
    refine ⟨?_, rfl⟩
    cases m <;> first | rfl | simp [Metric.percentilesOk] at hp

theorem newPointFor_some_supported (tags : Tags) (name : String) (m : Metric) (now : Time)
    (p : Point) (h : newPointFor tags name m now = .ok (some p)) : m.supported = true := by
  cases m with
  | other => simp [newPointFor] at h
  | _ => rfl

/-- The three ways a callback of `send` can go. -/
theorem sendFunc_cases (r : reporter) (clock : Nat → Time) (n : Nat) (name : String)
    (m : Metric) :
    (m.supported = false ∧ sendFunc r clock n name m = ⟨[], n + 1, none⟩) ∨
    (m.supported = true ∧ ∃ e, sendFunc r clock n name m = ⟨[], n + 1, some e⟩) ∨
    (m.supported = true ∧ ∃ p, newPointFor r.tags name m (clock n) = .ok (some p) ∧
      r.wapi.isSome = true ∧ sendFunc r clock n name m = ⟨[Call.writePoint p], n + 1, none⟩) := by
  cases h : newPointFor r.tags name m (clock n) with
  | error e =>
    right; left
    exact ⟨(newPointFor_error_supported _ _ _ _ e h).1, e, by simp [sendFunc, h]⟩
  | ok o =>
    cases o with
    | none =>
      left
      exact ⟨newPointFor_none _ _ _ _ h, by simp [sendFunc, h]⟩
    | some p =>
      right
      have hs := newPointFor_some_supported _ _ _ _ p h
      cases hw : r.wapi with
      | none => left; exact ⟨hs, Panic.nilDereference, by simp [sendFunc, h, hw]⟩
      | some w => right; exact ⟨hs, p, rfl, rfl, by simp [sendFunc, h, hw]⟩

/-- A callback of `send` on a reporter with a write API, under the precondition. -/
theorem sendFunc_ok (r : reporter) (w : WriteAPI) (hw : r.wapi = some w) (clock : Nat → Time)
    (n : Nat) (name : String) (m : Metric) (h : m.percentilesOk = true) :
    sendFunc r clock n name m =
      ⟨(pointOf r.tags name m (clock n)).toList.map Call.writePoint, n + 1, none⟩ := by
  have h1 := (newPointFor_ok r.tags name m (clock n) h).1
  cases hp : pointOf r.tags name m (clock n) with
  | none => rw [hp] at h1; simp [sendFunc, h1]
  | some p => rw [hp] at h1; simp [sendFunc, h1, hw]

/-- A pass in which every pair meets the precondition visits every pair. -/
theorem Each_ok (r : reporter) (w : WriteAPI) (hw : r.wapi = some w) (clock : Nat → Time)
    (entries : List (String × Metric)) (n : Nat)
    (h : ∀ e ∈ entries, e.2.percentilesOk = true) :
    Each (sendFunc r clock) entries n =
      ⟨(passPoints r.tags clock entries n).map Call.writePoint, n + entries.length, none⟩ := by
  induction entries generalizing n with
  | nil => simp [Each, passPoints]
  | cons e rest ih =>
    obtain ⟨name, m⟩ := e
    have hm : m.percentilesOk = true := h (name, m) (by simp)
    have hrest : ∀ e ∈ rest, e.2.percentilesOk = true := fun e he => h e (by simp [he])
    simp only [Each, sendFunc_ok r w hw clock n name m hm, ih (n + 1) hrest, passPoints,
      List.map_append, List.length_cons]
    simp only [Run.mk.injEq, and_true, true_and]
    omega

/-- A whole send pass under the precondition. -/
theorem send_ok (r : reporter) (w : WriteAPI) (hw : r.wapi = some w) (view : RegistryView)
    (clock : Nat → Time) (n : Nat) (h : ∀ e ∈ view r.reg, e.2.percentilesOk = true) :
    send r view clock n =
      ⟨(passPoints r.tags clock (view r.reg) n).map Call.writePoint ++ [Call.flush],
        n + (view r.reg).length, none⟩ := by
  simp [send, Each_ok r w hw clock (view r.reg) n h, hw]

theorem pointsOf_append (a b : List Call) : pointsOf (a ++ b) = pointsOf a ++ pointsOf b := by
  induction a with
  | nil => rfl
  | cons c rest ih => cases c <;> simp [pointsOf, ih]

theorem pointsOf_map_writePoint (pts : List Point) :
    pointsOf (pts.map Call.writePoint) = pts := by
  induction pts with
  | nil => rfl
  | cons p rest ih => simp [pointsOf, ih]

theorem mem_pointsOf (p : Point) (calls : List Call) :
    p ∈ pointsOf calls ↔ Call.writePoint p ∈ calls := by
  induction calls with
  | nil => simp [pointsOf]
  | cons c rest ih => cases c <;> simp [pointsOf, ih]

/-- What holds of the callbacks of a pass whatever the registry answers. -/
theorem Each_general (r : reporter) (clock : Nat → Time) (entries : List (String × Metric))
    (n : Nat) :
    (Each (sendFunc r clock) entries n).calls =
        (pointsOf (Each (sendFunc r clock) entries n).calls).map Call.writePoint ∧
    (∀ p ∈ pointsOf (Each (sendFunc r clock) entries n).calls,
        ∃ i name m, entries[i]? = some (name, m) ∧
          newPointFor r.tags name m (clock (n + i)) = .ok (some p)) ∧
    (∃ rest, (pointsOf (Each (sendFunc r clock) entries n).calls).map Point.ts ++ rest =
        supportedReads clock entries n) ∧
    ((Each (sendFunc r clock) entries n).panic = none →
        (pointsOf (Each (sendFunc r clock) entries n).calls).map Point.ts =
          supportedReads clock entries n ∧
        (Each (sendFunc r clock) entries n).reads = n + entries.length) ∧
    (Each (sendFunc r clock) entries n).reads ≤ n + entries.length := by
  induction entries generalizing n with
  | nil => simp [Each, pointsOf, supportedReads]
  | cons e rest ih =>
    obtain ⟨name, m⟩ := e
    obtain ⟨ih1, ih2, ⟨tl, ih3⟩, ih4, ih5⟩ := ih (n + 1)
    rcases sendFunc_cases r clock n name m with ⟨hs, hf⟩ | ⟨hs, e, hf⟩ | ⟨hs, p, hp, -, hf⟩
    · simp only [Each, hf, List.nil_append, supportedReads, hs, List.length_cons]
      refine ⟨ih1, ?_, ⟨tl, by simpa using ih3⟩, ?_, by omega⟩
      · intro q hq
        obtain ⟨i, nm, mm, h1, h2⟩ := ih2 q hq
        refine ⟨i + 1, nm, mm, by simpa using h1, ?_⟩
        rw [show n + (i + 1) = n + 1 + i by omega]; exact h2
      · intro hnone
        obtain ⟨h1, h2⟩ := ih4 hnone
        exact ⟨by simpa using h1, by omega⟩
    · simp only [Each, hf, supportedReads, hs, pointsOf, List.length_cons]
      refine ⟨rfl, by simp, ⟨_, rfl⟩, by simp, by omega⟩
    · have hts : p.ts = clock n := (newPointFor_shape _ _ _ _ p hp).2.1
      simp only [Each, hf, supportedReads, hs, List.length_cons, pointsOf_append, pointsOf,
        List.map_append, List.map_cons, List.map_nil]
      refine ⟨?_, ?_, ⟨tl, ?_⟩, ?_, by omega⟩
      · simpa using ih1
      · intro q hq
        simp only [List.singleton_append, List.mem_cons] at hq
        rcases hq with rfl | hq
        · exact ⟨0, name, m, by simp, by simpa using hp⟩
        · obtain ⟨i, nm, mm, h1, h2⟩ := ih2 q hq
          refine ⟨i + 1, nm, mm, by simpa using h1, ?_⟩
          rw [show n + (i + 1) = n + 1 + i by omega]; exact h2
      · simp [hts, ← ih3]
      · intro hnone
        obtain ⟨h1, h2⟩ := ih4 hnone
        exact ⟨by simp [hts, h1], by omega⟩

/-- The points of a send pass are those of its callbacks. -/
theorem pointsOf_send (r : reporter) (view : RegistryView) (clock : Nat → Time) (n : Nat) :
    pointsOf (send r view clock n).calls =
      pointsOf (Each (sendFunc r clock) (view r.reg) n).calls := by
  cases h1 : (Each (sendFunc r clock) (view r.reg) n).panic with
  | some e => simp [send, h1]
  | none =>
    cases h2 : r.wapi with
    | none => simp [send, h1, h2]
    | some w => simp [send, h1, h2, pointsOf_append, pointsOf]

/-- A send pass makes no call other than WritePoint and Flush. -/
theorem send_calls (r : reporter) (view : RegistryView) (clock : Nat → Time) (n : Nat) :
    ∀ c ∈ (send r view clock n).calls, c.isNewClient = false := by
  have hE := (Each_general r clock (view r.reg) n).1
  have hpts : ∀ c ∈ (Each (sendFunc r clock) (view r.reg) n).calls, c.isNewClient = false := by
    intro c hc
    rw [hE] at hc
    obtain ⟨p, -, rfl⟩ := List.mem_map.1 hc
    rfl
  intro c hc
  cases h1 : (Each (sendFunc r clock) (view r.reg) n).panic with
  | some e => simp only [send, h1] at hc; exact hpts c hc
  | none =>
    cases h2 : r.wapi with
    | none => simp only [send, h1, h2] at hc; exact hpts c hc
    | some w =>
      simp only [send, h1, h2, List.mem_append, List.mem_singleton] at hc
      rcases hc with hc | rfl
      · exact hpts c hc
      · rfl

theorem Kind.keys_nodup (k : Kind) : k.keys.Nodup := by
  cases k <;> decide

theorem Fields.get_eq_none (m : Fields) (k : String) (h : k ∉ m.map Prod.fst) :
    Fields.get m k = none := by
  induction m with
  | nil => rfl
  | cons e rest ih =>
    obtain ⟨k0, v⟩ := e
    simp only [List.map_cons, List.mem_cons, not_or] at h
    simp [Fields.get, h.1, ih h.2]

/-- Under the precondition, the points of a pass correspond one to one, in order, to the
supported pairs, and each matches the table and carries the tags. -/
theorem passPoints_forall₂ (tags : Tags) (clock : Nat → Time)
    (entries : List (String × Metric)) (n : Nat)
    (h : ∀ e ∈ entries, e.2.percentilesOk = true) :
    List.Forall₂ (fun p e => matchesTable e.1 e.2 p ∧ p.tags = tags)
      (passPoints tags clock entries n) (entries.filter fun e => e.2.supported) := by
  induction entries generalizing n with
  | nil => simp [passPoints]
  | cons e rest ih =>
    obtain ⟨name, m⟩ := e
    have hm : m.percentilesOk = true := h (name, m) (by simp)
    have hrest : ∀ e ∈ rest, e.2.percentilesOk = true := fun e he => h e (by simp [he])
    obtain ⟨h1, h2⟩ := newPointFor_ok tags name m (clock n) hm
    cases hp : pointOf tags name m (clock n) with
    | none =>
      rw [hp] at h2
      have hs : m.supported = false := by simpa using h2.symm
      simp only [passPoints, hp, Option.toList, List.nil_append, List.filter_cons, hs]
      exact ih (n + 1) hrest
    | some p =>
      rw [hp] at h1 h2
      have hs : m.supported = true := by simpa using h2.symm
      obtain ⟨ht, -, hk⟩ := newPointFor_shape tags name m (clock n) p h1
      simp only [passPoints, hp, Option.toList, List.singleton_append, List.filter_cons, hs]
      exact List.Forall₂.cons ⟨hk, ht⟩ (ih (n + 1) hrest)

/-- C1. For every metric name and every snapshot of each of the six supported kinds, a send
pass of a running reporter (its write API is installed, as in every state in which the loop
calls send) over that one registered metric either transcribes no point at all (which happens
only when a Histogram or Timer answers the six-quantile request with fewer than six values) or
transcribes exactly one point, and that point has measurement name, a dot and the suffix of the
kind, exactly the field keys of the specification's table for the kind, none of them twice, and
under every key the value source of the table; no other key is present. -/
theorem send_point_matches_table (r : reporter) (w : WriteAPI) (hw : r.wapi = some w)
    (view : RegistryView) (clock : Nat → Time) (n : Nat) (name : String) (m : Metric)
    (hv : view r.reg = [(name, m)]) (hs : m.supported = true) :
    (m.percentilesOk = false ∧ (send r view clock n).calls = []) ∨
    (m.percentilesOk = true ∧ ∃ p k,
      (send r view clock n).calls = [Call.writePoint p, Call.flush] ∧
      m.kind = some k ∧ p.measurement = name ++ "." ++ k.suffix ∧
      p.fields.map Prod.fst = k.keys ∧ k.keys.Nodup ∧
      (∀ key, p.fields.get key = specValue m key) ∧
      (∀ key, key ∉ k.keys → p.fields.get key = none)) := by
  cases hOk : m.percentilesOk with
  | false =>
    left
    obtain ⟨i, l, he⟩ := newPointFor_error r.tags name m (clock n) hOk
    exact ⟨rfl, by simp [send, hv, Each, sendFunc, he]⟩
  | true =>
    right
    refine ⟨rfl, ?_⟩
    have hall : ∀ e ∈ view r.reg, e.2.percentilesOk = true := by
      intro e he
      rw [hv] at he
      simp only [List.mem_singleton] at he
      subst he
      exact hOk
    obtain ⟨h1, h2⟩ := newPointFor_ok r.tags name m (clock n) hOk
    rw [hs] at h2
    obtain ⟨p, hp⟩ := Option.isSome_iff_exists.1 h2
    rw [hp] at h1
    obtain ⟨-, -, k, hk, hmeas, hkeys, hval⟩ := newPointFor_shape r.tags name m (clock n) p h1
    refine ⟨p, k, ?_, hk, hmeas, hkeys, k.keys_nodup, hval, ?_⟩
    · rw [send_ok r w hw view clock n hall, hv]
      simp [passPoints, hp]
    · intro key hkey
      exact Fields.get_eq_none p.fields key (by rw [hkeys]; exact hkey)

/-- Instance at the stub Timer registered as latency: the sixteen fields, with mean the mean
and meanrate the mean rate. -/
theorem send_point_matches_table_witness :
    (rpProd.wapi = some wProd ∧ viewTimer rpProd.reg = [("latency", Metric.Timer stubTimer)] ∧
      (Metric.Timer stubTimer).supported = true) ∧
    ((Metric.Timer stubTimer).percentilesOk = false ∧
        (send rpProd viewTimer clockT 0).calls = [] ∨
      (Metric.Timer stubTimer).percentilesOk = true ∧ ∃ p k,
        (send rpProd viewTimer clockT 0).calls = [Call.writePoint p, Call.flush] ∧
        (Metric.Timer stubTimer).kind = some k ∧ p.measurement = "latency" ++ "." ++ k.suffix ∧
        p.fields.map Prod.fst = k.keys ∧ k.keys.Nodup ∧
        (∀ key, p.fields.get key = specValue (Metric.Timer stubTimer) key) ∧
        (∀ key, key ∉ k.keys → p.fields.get key = none)) ∧
    (send rpProd viewTimer clockT 0).calls =
      [Call.writePoint
        { measurement := "latency.timer", tags := some [("env", "prod")],
          fields :=
            [("count", .int64 3), ("max", .int64 9), ("mean", .float64 ⟨11⟩),
             ("min", .int64 1), ("stddev", .float64 ⟨12⟩), ("variance", .float64 ⟨13⟩),
             ("p50", .float64 c0_5), ("p75", .float64 c0_75), ("p95", .float64 c0_95),
             ("p99", .float64 c0_99), ("p999", .float64 c0_999), ("p9999", .float64 c0_9999),
             ("m1", .float64 ⟨21⟩), ("m5", .float64 ⟨22⟩), ("m15", .float64 ⟨23⟩),
             ("meanrate", .float64 ⟨24⟩)],
          ts := 1700000000 },
       Call.flush] :=
  ⟨⟨rfl, rfl, rfl⟩,
   send_point_matches_table rpProd wProd rfl viewTimer clockT 0 "latency"
     (Metric.Timer stubTimer) rfl rfl,
   by decide⟩

/-- A pass over one registered value whose type switch builds a point. -/
theorem send_single (r : reporter) (w : WriteAPI) (hw : r.wapi = some w)
    (view : RegistryView) (clock : Nat → Time) (n : Nat) (name : String) (m : Metric)
    (hv : view r.reg = [(name, m)]) (p : Point)
    (hp : newPointFor r.tags name m (clock n) = .ok (some p)) :
    send r view clock n = ⟨[Call.writePoint p, Call.flush], n + 1, none⟩ := by
  simp [send, hv, Each, sendFunc, hp, hw]

/-- C4. For every Histogram snapshot and every Timer snapshot, send (of a running reporter,
whose write API is installed) requests the percentiles at exactly the quantile list 0.5, 0.75,
0.95, 0.99, 0.999, 0.9999 in that order: `Percentiles` is any function of the request, and
whenever its answer to that very list is a, b, c, d, e, f the one emitted point has p50 = a,
p75 = b, p95 = c, p99 = d, p999 = e and p9999 = f, whatever the six values are. -/
theorem percentiles_positional (r : reporter) (w : WriteAPI) (hw : r.wapi = some w)
    (view : RegistryView) (clock : Nat → Time) (n : Nat) (name : String)
    (a b c d e f : Float64) :
    (∀ ms : HistogramSnapshot, view r.reg = [(name, Metric.Histogram ms)] →
      ms.Percentiles [c0_5, c0_75, c0_95, c0_99, c0_999, c0_9999] = [a, b, c, d, e, f] →
      ∃ p, (send r view clock n).calls = [Call.writePoint p, Call.flush] ∧
        p.fields.get "p50" = some (.float64 a) ∧ p.fields.get "p75" = some (.float64 b) ∧
        p.fields.get "p95" = some (.float64 c) ∧ p.fields.get "p99" = some (.float64 d) ∧
        p.fields.get "p999" = some (.float64 e) ∧ p.fields.get "p9999" = some (.float64 f)) ∧
    (∀ ms : TimerSnapshot, view r.reg = [(name, Metric.Timer ms)] →
      ms.Percentiles [c0_5, c0_75, c0_95, c0_99, c0_999, c0_9999] = [a, b, c, d, e, f] →
      ∃ p, (send r view clock n).calls = [Call.writePoint p, Call.flush] ∧
        p.fields.get "p50" = some (.float64 a) ∧ p.fields.get "p75" = some (.float64 b) ∧
        p.fields.get "p95" = some (.float64 c) ∧ p.fields.get "p99" = some (.float64 d) ∧
        p.fields.get "p999" = some (.float64 e) ∧ p.fields.get "p9999" = some (.float64 f)) := by
  constructor
  · intro ms hv hps
    have hp := newPointFor_Histogram_six r.tags name ms (clock n) a b c d e f [] hps
    refine ⟨_, congrArg Run.calls (send_single r w hw view clock n name _ hv _ hp), ?_⟩
    simp [Fields.get]
  · intro ms hv hps
    have hp := newPointFor_Timer_six r.tags name ms (clock n) a b c d e f [] hps
    refine ⟨_, congrArg Run.calls (send_single r w hw view clock n name _ hv _ hp), ?_⟩
    simp [Fields.get]

/-- Instance at the stub Histogram that answers with the request itself: the emitted
percentiles are the six requested quantiles, in order. -/
theorem percentiles_positional_witness :
    (rpProd.wapi = some wProd) ∧
    (viewHistogram rpProd.reg = [("sizes", Metric.Histogram stubHistogram)] ∧
      stubHistogram.Percentiles [c0_5, c0_75, c0_95, c0_99, c0_999, c0_9999] =
        [c0_5, c0_75, c0_95, c0_99, c0_999, c0_9999]) ∧
    (∃ p, (send rpProd viewHistogram clockT 0).calls = [Call.writePoint p, Call.flush] ∧
        p.fields.get "p50" = some (.float64 c0_5) ∧ p.fields.get "p75" = some (.float64 c0_75) ∧
        p.fields.get "p95" = some (.float64 c0_95) ∧ p.fields.get "p99" = some (.float64 c0_99) ∧
        p.fields.get "p999" = some (.float64 c0_999) ∧
        p.fields.get "p9999" = some (.float64 c0_9999)) :=
  ⟨rfl, ⟨rfl, rfl⟩,
   (percentiles_positional rpProd wProd rfl viewHistogram clockT 0 "sizes"
     c0_5 c0_75 c0_95 c0_99 c0_999 c0_9999).1 stubHistogram rfl rfl⟩

/-- C10. Transcription is total under the percentile-length precondition: a send pass (of a
running reporter, whose write API is installed) over a registered Counter, Gauge, GaugeFloat64
or Meter emits its point and ends normally with no precondition on the snapshot, and a pass
over a registered Histogram or Timer whose answer to the six-quantile request has at least six
values does not reach the index-out-of-range panic of the six index expressions and emits its
point. -/
theorem send_total (r : reporter) (w : WriteAPI) (hw : r.wapi = some w)
    (view : RegistryView) (clock : Nat → Time) (n : Nat) (name : String) :
    (∀ ms, view r.reg = [(name, Metric.Counter ms)] →
      ∃ p, newPointFor r.tags name (Metric.Counter ms) (clock n) = .ok (some p) ∧
        send r view clock n = ⟨[Call.writePoint p, Call.flush], n + 1, none⟩) ∧
    (∀ ms, view r.reg = [(name, Metric.Gauge ms)] →
      ∃ p, newPointFor r.tags name (Metric.Gauge ms) (clock n) = .ok (some p) ∧
        send r view clock n = ⟨[Call.writePoint p, Call.flush], n + 1, none⟩) ∧
    (∀ ms, view r.reg = [(name, Metric.GaugeFloat64 ms)] →
      ∃ p, newPointFor r.tags name (Metric.GaugeFloat64 ms) (clock n) = .ok (some p) ∧
        send r view clock n = ⟨[Call.writePoint p, Call.flush], n + 1, none⟩) ∧
    (∀ ms, view r.reg = [(name, Metric.Meter ms)] →
      ∃ p, newPointFor r.tags name (Metric.Meter ms) (clock n) = .ok (some p) ∧
        send r view clock n = ⟨[Call.writePoint p, Call.flush], n + 1, none⟩) ∧
    (∀ ms : HistogramSnapshot, view r.reg = [(name, Metric.Histogram ms)] →
      6 ≤ (ms.Percentiles [c0_5, c0_75, c0_95, c0_99, c0_999, c0_9999]).length →
      ∃ p, newPointFor r.tags name (Metric.Histogram ms) (clock n) = .ok (some p) ∧
        send r view clock n = ⟨[Call.writePoint p, Call.flush], n + 1, none⟩) ∧
    (∀ ms : TimerSnapshot, view r.reg = [(name, Metric.Timer ms)] →
      6 ≤ (ms.Percentiles [c0_5, c0_75, c0_95, c0_99, c0_999, c0_9999]).length →
      ∃ p, newPointFor r.tags name (Metric.Timer ms) (clock n) = .ok (some p) ∧
        send r view clock n = ⟨[Call.writePoint p, Call.flush], n + 1, none⟩) := by
  have key : ∀ m : Metric, view r.reg = [(name, m)] → m.supported = true →
      m.percentilesOk = true →
      ∃ p, newPointFor r.tags name m (clock n) = .ok (some p) ∧
        send r view clock n = ⟨[Call.writePoint p, Call.flush], n + 1, none⟩ := by
    intro m hv hs hOk
    obtain ⟨h1, h2⟩ := newPointFor_ok r.tags name m (clock n) hOk
    rw [hs] at h2
    obtain ⟨p, hp⟩ := Option.isSome_iff_exists.1 h2
    rw [hp] at h1
    exact ⟨p, h1, send_single r w hw view clock n name m hv p h1⟩
  refine ⟨?_, ?_, ?_, ?_, ?_, ?_⟩
  · intro ms hv; exact key _ hv rfl rfl
  · intro ms hv; exact key _ hv rfl rfl
  · intro ms hv; exact key _ hv rfl rfl
  · intro ms hv; exact key _ hv rfl rfl
  · intro ms hv hlen
    exact key _ hv rfl (by simpa [Metric.percentilesOk, specQuantiles] using hlen)
  · intro ms hv hlen
    exact key _ hv rfl (by simpa [Metric.percentilesOk, specQuantiles] using hlen)

/-- Instance at the stub Timer, whose answer has six values, and at a Meter. -/
theorem send_total_witness :
    (rpProd.wapi = some wProd) ∧
    (viewTimer rpProd.reg = [("latency", Metric.Timer stubTimer)] ∧
      6 ≤ (stubTimer.Percentiles [c0_5, c0_75, c0_95, c0_99, c0_999, c0_9999]).length) ∧
    (∃ p, newPointFor rpProd.tags "latency" (Metric.Timer stubTimer) (clockT 0) = .ok (some p) ∧
      send rpProd viewTimer clockT 0 = ⟨[Call.writePoint p, Call.flush], 0 + 1, none⟩) ∧
    viewMeter rpProd.reg = [("hits", Metric.Meter ⟨5, ⟨31⟩, ⟨32⟩, ⟨33⟩, ⟨34⟩⟩)] ∧
    (∃ p, newPointFor rpProd.tags "hits" (Metric.Meter ⟨5, ⟨31⟩, ⟨32⟩, ⟨33⟩, ⟨34⟩⟩) (clockT 0) =
        .ok (some p) ∧
      send rpProd viewMeter clockT 0 = ⟨[Call.writePoint p, Call.flush], 0 + 1, none⟩) :=
  ⟨rfl, ⟨rfl, by decide⟩,
   (send_total rpProd wProd rfl viewTimer clockT 0 "latency").2.2.2.2.2 stubTimer rfl
     (by decide),
   rfl,
   (send_total rpProd wProd rfl viewMeter clockT 0 "hits").2.2.2.1 _ rfl⟩

/-- C2, as amended. For every registry contents whose Histogram and Timer snapshots answer the
six-quantile request with at least six values, a send pass (of a running reporter, whose write
API is installed) makes exactly these calls on the write client: one WritePoint per metric of a
supported kind, in iteration order, each point matching the table and carrying the reporter's
tags, followed by exactly one Flush as the last call; it reads the clock once per registered
pair and ends normally.  In particular an empty registry yields just one Flush. -/
theorem send_calls_exact (r : reporter) (w : WriteAPI) (hw : r.wapi = some w)
    (view : RegistryView) (clock : Nat → Time) (n : Nat)
    (hOk : ∀ e ∈ view r.reg, e.2.percentilesOk = true) :
    (∃ pts, send r view clock n =
        ⟨pts.map Call.writePoint ++ [Call.flush], n + (view r.reg).length, none⟩ ∧
      List.Forall₂ (fun p e => matchesTable e.1 e.2 p ∧ p.tags = r.tags) pts
        ((view r.reg).filter fun e => e.2.supported)) ∧
    (view r.reg = [] → (send r view clock n).calls = [Call.flush]) := by
  refine ⟨⟨passPoints r.tags clock (view r.reg) n, send_ok r w hw view clock n hOk,
    passPoints_forall₂ r.tags clock (view r.reg) n hOk⟩, ?_⟩
  intro hnil
  rw [send_ok r w hw view clock n hOk, hnil]
  rfl

/-- Instance at the scenario of the specification: Counter requests = 42 and Gauge queue_size = 7
with tags env = prod give exactly the points requests.count and queue_size.gauge, then Flush. -/
theorem send_calls_exact_witness :
    (rpProd.wapi = some wProd ∧ ∀ e ∈ viewScenario rpProd.reg, e.2.percentilesOk = true) ∧
    ((∃ pts, send rpProd viewScenario clockT 0 =
        ⟨pts.map Call.writePoint ++ [Call.flush], 0 + (viewScenario rpProd.reg).length, none⟩ ∧
      List.Forall₂ (fun p e => matchesTable e.1 e.2 p ∧ p.tags = rpProd.tags) pts
        ((viewScenario rpProd.reg).filter fun e => e.2.supported)) ∧
    (viewScenario rpProd.reg = [] → (send rpProd viewScenario clockT 0).calls = [Call.flush])) ∧
    (send rpProd viewScenario clockT 0).calls =
      [Call.writePoint
        { measurement := "requests.count", tags := some [("env", "prod")],
          fields := [("value", .int64 42)], ts := 1700000000 },
       Call.writePoint
        { measurement := "queue_size.gauge", tags := some [("env", "prod")],
          fields := [("value", .int64 7)], ts := 1700000001 },
       Call.flush] :=
  have h : ∀ e ∈ viewScenario rpProd.reg, e.2.percentilesOk = true := by
    intro e he
    simp only [viewScenario, List.mem_cons, List.mem_singleton, List.not_mem_nil, or_false] at he
    rcases he with rfl | rfl <;> rfl
  ⟨⟨rfl, h⟩, send_calls_exact rpProd wProd rfl viewScenario clockT 0 h, by decide⟩

/-- Without the precondition the statement fails: on a registry holding a Histogram whose Percentiles answers with the
empty slice, the pass panics at the first index expression, having made no call at all; there
is no WritePoint for the supported metric and no Flush. -/
theorem send_calls_exact_counterexample :
    rpProd.wapi = some wProd ∧
    (Metric.Histogram shortHistogram).supported = true ∧
    send rpProd viewShort clockT 0 = ⟨[], 1, some (Panic.indexOutOfRange 0 0)⟩ ∧
    ¬ ∃ pts, (send rpProd viewShort clockT 0).calls =
        List.map Call.writePoint pts ++ [Call.flush] := by
  refine ⟨rfl, rfl, by decide, ?_⟩
  rintro ⟨pts, h⟩
  have h0 : (send rpProd viewShort clockT 0).calls = [] := by decide
  rw [h0] at h
  simp at h

/-- A send pass that ends normally had no panicking callback; it never reads the clock
outside its callbacks. -/
theorem send_reads (r : reporter) (view : RegistryView) (clock : Nat → Time) (n : Nat) :
    (send r view clock n).reads = (Each (sendFunc r clock) (view r.reg) n).reads ∧
    ((send r view clock n).panic = none →
      (Each (sendFunc r clock) (view r.reg) n).panic = none) := by
  cases h1 : (Each (sendFunc r clock) (view r.reg) n).panic with
  | some e => simp [send, h1]
  | none =>
    cases h2 : r.wapi with
    | none => simp [send, h1, h2]
    | some w => simp [send, h1, h2]

/-- C3, as amended. For every registry and every clock, each point emitted by a send pass
carries the value of the clock read made at the start of its own metric's callback: the clock
is read once per registered metric visited, supported or not, in iteration order, so the
timestamps of the points, in order, are the reads made at the positions of the supported
metrics (all of them when the pass ends normally, a leading part of them when it panics).
The points of one pass therefore carry the same timestamp whenever the reads of that pass
return the same value. -/
theorem send_timestamps (r : reporter) (view : RegistryView) (clock : Nat → Time) (n : Nat) :
    (∃ rest, (pointsOf (send r view clock n).calls).map Point.ts ++ rest =
        supportedReads clock (view r.reg) n) ∧
    ((send r view clock n).panic = none →
      (pointsOf (send r view clock n).calls).map Point.ts =
          supportedReads clock (view r.reg) n ∧
        (send r view clock n).reads = n + (view r.reg).length) ∧
    (∀ t, (∀ i, i < (view r.reg).length → clock (n + i) = t) →
      ∀ p, Call.writePoint p ∈ (send r view clock n).calls → p.ts = t) := by
  obtain ⟨-, h2, h3, h4, -⟩ := Each_general r clock (view r.reg) n
  obtain ⟨hr, hp⟩ := send_reads r view clock n
  rw [pointsOf_send, hr]
  refine ⟨h3, fun hnone => h4 (hp hnone), ?_⟩
  intro t ht p hmem
  rw [← mem_pointsOf, pointsOf_send] at hmem
  obtain ⟨i, name, m, hi, hnp⟩ := h2 p hmem
  have hlt : i < (view r.reg).length := by
    rcases Nat.lt_or_ge i (view r.reg).length with h | h
    · exact h
    · rw [List.getElem?_eq_none h] at hi; cases hi
  rw [(newPointFor_shape _ _ _ _ p hnp).2.1]
  exact ht i hlt

/-- Instance at the scenario registry: with a clock whose reads differ the two points carry the
first and the second read; with a frozen clock both carry the same timestamp. -/
theorem send_timestamps_witness :
    ((send rpProd viewScenario clockT 0).panic = none ∧
      ∀ i, i < (viewScenario rpProd.reg).length → clockFrozen (0 + i) = 1700000000) ∧
    ((pointsOf (send rpProd viewScenario clockT 0).calls).map Point.ts =
        supportedReads clockT (viewScenario rpProd.reg) 0 ∧
      (send rpProd viewScenario clockT 0).reads = 0 + (viewScenario rpProd.reg).length) ∧
    (∀ p, Call.writePoint p ∈ (send rpProd viewScenario clockFrozen 0).calls →
      p.ts = 1700000000) ∧
    (pointsOf (send rpProd viewScenario clockT 0).calls).map Point.ts =
      [1700000000, 1700000001] :=
  ⟨⟨by decide, fun _ _ => rfl⟩,
   (send_timestamps rpProd viewScenario clockT 0).2.1 (by decide),
   (send_timestamps rpProd viewScenario clockFrozen 0).2.2 1700000000 (fun _ _ => rfl),
   by decide⟩

/-- A single timestamp per pass fails: with a clock whose successive reads differ, the two
points of one pass over the scenario registry carry different timestamps, the first and the
second read. -/
theorem send_timestamps_counterexample :
    (pointsOf (send rpProd viewScenario clockT 0).calls).map Point.ts =
        [clockT 0, clockT 1] ∧ clockT 0 ≠ clockT 1 ∧
    ¬ ∀ p q, Call.writePoint p ∈ (send rpProd viewScenario clockT 0).calls →
        Call.writePoint q ∈ (send rpProd viewScenario clockT 0).calls → p.ts = q.ts := by
  refine ⟨by decide, by decide, ?_⟩
  intro h
  have h1 := h
    { measurement := "requests.count", tags := some [("env", "prod")],
      fields := [("value", .int64 42)], ts := 1700000000 }
    { measurement := "queue_size.gauge", tags := some [("env", "prod")],
      fields := [("value", .int64 7)], ts := 1700000001 }
    (by decide) (by decide)
  revert h1
  decide

/-- The clock value only ends up in the timestamp of the point. -/
theorem pointOf_retime (tags : Tags) (name : String) (m : Metric) (t t2 : Time) :
    pointOf tags name m t2 = (pointOf tags name m t).map fun p => { p with ts := t2 } := by
  cases m with
  | Histogram ms =>
    rcases six_or_short (ms.Percentiles specQuantiles) with
      ⟨a, b, c, d, e, f, rest, hps⟩ | hlt
    · simp [pointOf, newPointFor_Histogram_six tags name ms _ a b c d e f rest hps]
    · simp [pointOf, newPointFor_Histogram_short tags name ms _ hlt]
  | Timer ms =>
    rcases six_or_short (ms.Percentiles specQuantiles) with
      ⟨a, b, c, d, e, f, rest, hps⟩ | hlt
    · simp [pointOf, newPointFor_Timer_six tags name ms _ a b c d e f rest hps]
    · simp [pointOf, newPointFor_Timer_short tags name ms _ hlt]
  | _ => simp [pointOf, newPointFor, NewPoint]

theorem pointOf_untimed (tags : Tags) (name : String) (m : Metric) (t t2 : Time) :
    (pointOf tags name m t2).toList.map Point.untimed =
      (pointOf tags name m t).toList.map Point.untimed := by
  rw [pointOf_retime tags name m t t2]
  cases pointOf tags name m t <;> simp [Point.untimed]

theorem pointOf_unsupported (tags : Tags) (name : String) (m : Metric) (t : Time)
    (h : m.supported = false) : pointOf tags name m t = none := by
  cases m with
  | other => rfl
  | _ => simp [Metric.supported, Metric.kind] at h

/-- Dropping the unsupported pairs changes the points of a pass in their timestamps only. -/
theorem passPoints_filter (tags : Tags) (clock clock2 : Nat → Time)
    (entries : List (String × Metric)) (n n2 : Nat) :
    (passPoints tags clock entries n).map Point.untimed =
      (passPoints tags clock2 (entries.filter fun e => e.2.supported) n2).map Point.untimed := by
  induction entries generalizing n n2 with
  | nil => simp [passPoints]
  | cons e rest ih =>
    obtain ⟨name, m⟩ := e
    cases hs : m.supported with
    | false =>
      simp only [passPoints, pointOf_unsupported tags name m _ hs, List.filter_cons, hs,
        Option.toList, List.nil_append]
      exact ih (n + 1) n2
    | true =>
      simp only [passPoints, List.filter_cons, hs, List.map_append, if_true]
      rw [pointOf_untimed tags name m (clock n) (clock2 n2), ih (n + 1) (n2 + 1)]

/-- With clocks that agree on every read, dropping the unsupported pairs changes nothing. -/
theorem passPoints_filter_frozen (tags : Tags) (clock clock2 : Nat → Time)
    (hc : ∀ i j, clock i = clock2 j) (entries : List (String × Metric)) (n n2 : Nat) :
    passPoints tags clock entries n =
      passPoints tags clock2 (entries.filter fun e => e.2.supported) n2 := by
  induction entries generalizing n n2 with
  | nil => simp [passPoints]
  | cons e rest ih =>
    obtain ⟨name, m⟩ := e
    cases hs : m.supported with
    | false =>
      simp only [passPoints, pointOf_unsupported tags name m _ hs, List.filter_cons, hs,
        Option.toList, List.nil_append]
      exact ih (n + 1) n2
    | true =>
      simp only [passPoints, List.filter_cons, hs, if_true]
      rw [hc n n2, ih (n + 1) (n2 + 1)]

/-- C5, as amended. A registered metric of none of the six supported kinds produces zero
points and no error and does not interrupt the others: for every registry list whose Histogram
and Timer snapshots answer the six-quantile request with at least six values, the pass (of a
running reporter, whose write API is installed) ends normally with its Flush as last call, and
the points it emits are, in the same order and apart from their timestamps, the points emitted
for the same list with all unsupported entries removed; the timestamps, and so the whole call
sequences, are equal too when the clock reads of the two passes all return the same value. -/
theorem unsupported_skipped (r : reporter) (w : WriteAPI) (hw : r.wapi = some w)
    (view view2 : RegistryView) (clock clock2 : Nat → Time) (n n2 : Nat)
    (hf : view2 r.reg = (view r.reg).filter fun e => e.2.supported)
    (hOk : ∀ e ∈ view r.reg, e.2.percentilesOk = true) :
    (send r view clock n).panic = none ∧
    (∃ pts, (send r view clock n).calls = List.map Call.writePoint pts ++ [Call.flush]) ∧
    (pointsOf (send r view clock n).calls).map Point.untimed =
      (pointsOf (send r view2 clock2 n2).calls).map Point.untimed ∧
    ((∀ i j, clock i = clock2 j) →
      (send r view clock n).calls = (send r view2 clock2 n2).calls) ∧
    (∀ name, view r.reg = [(name, Metric.other)] →
      (send r view clock n).calls = [Call.flush]) := by
  have hOk2 : ∀ e ∈ view2 r.reg, e.2.percentilesOk = true := by
    intro e he
    rw [hf] at he
    exact hOk e (List.mem_filter.1 he).1
  have h1 := send_ok r w hw view clock n hOk
  have h2 := send_ok r w hw view2 clock2 n2 hOk2
  refine ⟨by rw [h1], ⟨_, by rw [h1]⟩, ?_, ?_, ?_⟩
  · rw [h1, h2]
    simp only [pointsOf_append, pointsOf_map_writePoint, pointsOf, List.append_nil]
    rw [hf]
    exact passPoints_filter r.tags clock clock2 (view r.reg) n n2
  · intro hc
    rw [h1, h2]
    simp only
    rw [hf, passPoints_filter_frozen r.tags clock clock2 hc (view r.reg) n n2]
  · intro name hv
    rw [h1, hv]
    rfl

/-- Instance at a registry holding an unsupported value and a Counter: the pass over it and the
pass over the Counter alone emit the same point apart from the timestamp, and the very same
calls under a frozen clock. -/
theorem unsupported_skipped_witness :
    (rpProd.wapi = some wProd ∧
      viewMixedSupported rpProd.reg = (viewMixed rpProd.reg).filter (fun e => e.2.supported) ∧
      (∀ e ∈ viewMixed rpProd.reg, e.2.percentilesOk = true) ∧
      ∀ i j, clockFrozen i = clockFrozen j) ∧
    ((send rpProd viewMixed clockT 0).panic = none ∧
      (∃ pts, (send rpProd viewMixed clockT 0).calls =
        List.map Call.writePoint pts ++ [Call.flush]) ∧
      (pointsOf (send rpProd viewMixed clockT 0).calls).map Point.untimed =
        (pointsOf (send rpProd viewMixedSupported clockT 0).calls).map Point.untimed ∧
      ((∀ i j, clockT i = clockT j) →
        (send rpProd viewMixed clockT 0).calls =
          (send rpProd viewMixedSupported clockT 0).calls) ∧
      (∀ name, viewMixed rpProd.reg = [(name, Metric.other)] →
        (send rpProd viewMixed clockT 0).calls = [Call.flush])) ∧
    (send rpProd viewMixed clockFrozen 0).calls =
      (send rpProd viewMixedSupported clockFrozen 0).calls ∧
    (send rpProd viewMixed clockT 0).calls =
      [Call.writePoint
        { measurement := "requests.count", tags := some [("env", "prod")],
          fields := [("value", .int64 42)], ts := 1700000001 },
       Call.flush] :=
  have hf : viewMixedSupported rpProd.reg =
      (viewMixed rpProd.reg).filter (fun e => e.2.supported) := rfl
  have h : ∀ e ∈ viewMixed rpProd.reg, e.2.percentilesOk = true := by
    intro e he
    simp only [viewMixed, List.mem_cons, List.mem_singleton, List.not_mem_nil, or_false] at he
    rcases he with rfl | rfl <;> rfl
  ⟨⟨rfl, hf, h, fun _ _ => rfl⟩,
   unsupported_skipped rpProd wProd rfl viewMixed viewMixedSupported clockT clockT 0 0 hf h,
   (unsupported_skipped rpProd wProd rfl viewMixed viewMixedSupported clockFrozen clockFrozen
     0 0 hf h).2.2.2.1 (fun _ _ => rfl),
   by decide⟩

/-- Equality of the points and the closing Flush both fail without the amendments.  With a clock whose successive reads differ, the point of the
Counter behind an unsupported value carries the second read, while in the pass over the list
without the unsupported value it carries the first: the points are not the same.  And when the
percentile answer of a Histogram behind an unsupported value is empty, the pass panics and does
not end with its Flush. -/
theorem unsupported_skipped_counterexample :
    (viewMixedSupported rpProd.reg = (viewMixed rpProd.reg).filter (fun e => e.2.supported) ∧
      pointsOf (send rpProd viewMixed clockT 0).calls ≠
        pointsOf (send rpProd viewMixedSupported clockT 0).calls) ∧
    (viewMixedShortSupported rpProd.reg =
        (viewMixedShort rpProd.reg).filter (fun e => e.2.supported) ∧
      send rpProd viewMixedShort clockT 0 = ⟨[], 2, some (Panic.indexOutOfRange 0 0)⟩ ∧
      ¬ ∃ pts, (send rpProd viewMixedShort clockT 0).calls =
          List.map Call.writePoint pts ++ [Call.flush]) := by
  refine ⟨⟨rfl, by decide⟩, rfl, by decide, ?_⟩
  rintro ⟨pts, h⟩
  have h0 : (send rpProd viewMixedShort clockT 0).calls = [] := by decide
  rw [h0] at h
  simp at h

/-- The method makeClient assigns the two client fields and nothing else. -/
theorem makeClient_frame (r : reporter) :
    (makeClient r).1.reg = r.reg ∧ (makeClient r).1.interval = r.interval ∧
    (makeClient r).1.url = r.url ∧ (makeClient r).1.token = r.token ∧
    (makeClient r).1.org = r.org ∧ (makeClient r).1.bucket = r.bucket ∧
    (makeClient r).1.tags = r.tags :=
  ⟨rfl, rfl, rfl, rfl, rfl, rfl, rfl⟩

/-- One iteration of the loop leaves the seven configuration fields alone. -/
theorem step_frame (clock : Nat → Time) (s : LoopState) (e : Event) :
    (step clock s e).rp.reg = s.rp.reg ∧ (step clock s e).rp.interval = s.rp.interval ∧
    (step clock s e).rp.url = s.rp.url ∧ (step clock s e).rp.token = s.rp.token ∧
    (step clock s e).rp.org = s.rp.org ∧ (step clock s e).rp.bucket = s.rp.bucket ∧
    (step clock s e).rp.tags = s.rp.tags := by
  cases e with
  | tick view => exact ⟨rfl, rfl, rfl, rfl, rfl, rfl, rfl⟩
  | writeError => exact makeClient_frame s.rp

/-- The loop leaves the seven configuration fields alone. -/
theorem loop_frame (clock : Nat → Time) (s : LoopState) (events : List Event) :
    (loop clock s events).rp.reg = s.rp.reg ∧
    (loop clock s events).rp.interval = s.rp.interval ∧
    (loop clock s events).rp.url = s.rp.url ∧ (loop clock s events).rp.token = s.rp.token ∧
    (loop clock s events).rp.org = s.rp.org ∧ (loop clock s events).rp.bucket = s.rp.bucket ∧
    (loop clock s events).rp.tags = s.rp.tags := by
  induction events generalizing s with
  | nil => exact ⟨rfl, rfl, rfl, rfl, rfl, rfl, rfl⟩
  | cons e rest ih =>
    cases hp : s.panic with
    | some x => simp [loop, hp]
    | none =>
      cases hw : s.rp.wapi with
      | none => simp [loop, hp, hw]
      | some w =>
        simp only [loop, hp, hw]
        obtain ⟨h1, h2, h3, h4, h5, h6, h7⟩ := ih (step clock s e)
        obtain ⟨g1, g2, g3, g4, g5, g6, g7⟩ := step_frame clock s e
        exact ⟨h1.trans g1, h2.trans g2, h3.trans g3, h4.trans g4, h5.trans g5, h6.trans g6,
          h7.trans g7⟩

/-- One iteration of the loop leaves a write API installed. -/
theorem step_wapi (clock : Nat → Time) (s : LoopState) (e : Event)
    (h : s.rp.wapi.isSome = true) : (step clock s e).rp.wapi.isSome = true := by
  cases e with
  | tick view => exact h
  | writeError => rfl

/-- The loop leaves a write API installed. -/
theorem loop_wapi (clock : Nat → Time) (s : LoopState) (events : List Event)
    (h : s.rp.wapi.isSome = true) : (loop clock s events).rp.wapi.isSome = true := by
  induction events generalizing s with
  | nil => exact h
  | cons e rest ih =>
    cases hp : s.panic with
    | some x => simp only [loop, hp]; exact h
    | none =>
      cases hw : s.rp.wapi with
      | none => simp only [loop, hp, hw]; rw [hw] at h; cases h
      | some w =>
        simp only [loop, hp, hw]
        exact ih (step clock s e) (step_wapi clock s e (by rw [hw]; rfl))

/-- In every state reached from construction the write API is installed: `send` never runs on
a reporter whose `wapi` is nil. -/
theorem InfluxDBWithTags_wapi (reg : Registry) (d : Duration) (url token org bucket : String)
    (tags : Tags) (clock : Nat → Time) (events : List Event) :
    (InfluxDBWithTags reg d url token org bucket tags clock events).rp.wapi.isSome = true := by
  unfold InfluxDBWithTags run
  simp only
  split
  · rfl
  · exact loop_wapi clock _ events rfl

/-- Every point of a send pass carries the reporter's tags. -/
theorem send_tags (r : reporter) (view : RegistryView) (clock : Nat → Time) (n : Nat)
    (p : Point) (h : Call.writePoint p ∈ (send r view clock n).calls) : p.tags = r.tags := by
  rw [← mem_pointsOf, pointsOf_send] at h
  obtain ⟨i, name, m, -, hnp⟩ := (Each_general r clock (view r.reg) n).2.1 p h
  exact (newPointFor_shape _ _ _ _ p hnp).1

/-- One iteration of the loop keeps every logged point tagged with the reporter's tags. -/
theorem step_tags (clock : Nat → Time) (s : LoopState) (e : Event)
    (h : ∀ p, Call.writePoint p ∈ s.calls → p.tags = s.rp.tags) :
    ∀ p, Call.writePoint p ∈ (step clock s e).calls → p.tags = (step clock s e).rp.tags := by
  intro p hp
  cases e with
  | tick view =>
    simp only [step, List.mem_append] at hp ⊢
    rcases hp with hp | hp
    · exact h p hp
    · exact send_tags s.rp view clock s.reads p hp
  | writeError =>
    simp only [step, makeClient, List.mem_append, List.mem_cons, List.mem_singleton,
      List.not_mem_nil, or_false] at hp ⊢
    rcases hp with hp | hp | hp
    · exact h p hp
    · cases hp
    · cases hp

/-- The loop keeps every logged point tagged with the reporter's tags. -/
theorem loop_tags (clock : Nat → Time) (s : LoopState) (events : List Event)
    (h : ∀ p, Call.writePoint p ∈ s.calls → p.tags = s.rp.tags) :
    ∀ p, Call.writePoint p ∈ (loop clock s events).calls → p.tags = s.rp.tags := by
  induction events generalizing s with
  | nil => exact h
  | cons e rest ih =>
    cases hp : s.panic with
    | some x => simp only [loop, hp]; exact h
    | none =>
      cases hw : s.rp.wapi with
      | none => simp only [loop, hp, hw]; exact h
      | some w =>
        simp only [loop, hp, hw]
        intro p hmem
        rw [ih (step clock s e) (step_tags clock s e h) p hmem]
        exact (step_frame clock s e).2.2.2.2.2.2

/-- The calls of `InfluxDBWithTags` are those of the construction followed by those of the
loop, when the loop starts at all. -/
theorem InfluxDBWithTags_tags (reg : Registry) (d : Duration) (url token org bucket : String)
    (tags : Tags) (clock : Nat → Time) (events : List Event) (p : Point)
    (h : Call.writePoint p ∈
      (InfluxDBWithTags reg d url token org bucket tags clock events).calls) :
    p.tags = tags := by
  unfold InfluxDBWithTags run at h
  simp only at h
  split at h
  · simp [makeClient] at h
  · exact loop_tags clock _ events (by simp [makeClient]) p h

/-- C6. For every reporter built by InfluxDBWithTags with a tags argument and every finite
sequence of tick and write-error events, every point emitted in every send pass, before and
after any number of reconnects, carries a tag set equal to that argument; for a reporter built
by InfluxDB, which takes no tags argument, every point carries the nil, hence empty, tag set. -/
theorem tags_fixed (reg : Registry) (d : Duration) (url token org bucket : String)
    (tags : Tags) (clock : Nat → Time) (events : List Event) (p : Point) :
    (Call.writePoint p ∈
        (InfluxDBWithTags reg d url token org bucket tags clock events).calls →
      p.tags = tags) ∧
    (Call.writePoint p ∈ (InfluxDB reg d url token org bucket clock events).calls →
      p.tags = none ∧ Tags.len p.tags = 0) := by
  refine ⟨InfluxDBWithTags_tags reg d url token org bucket tags clock events p, ?_⟩
  intro h
  have h2 := InfluxDBWithTags_tags reg d url token org bucket none clock events p h
  rw [h2]
  exact ⟨rfl, rfl⟩

/-- Instance at a tick, a write error and a second tick over the scenario registry: the point of
the Gauge emitted after the reconnect carries env = prod, and without tags it carries none. -/
theorem tags_fixed_witness :
    (Call.writePoint gaugeAfterReconnect ∈
      (InfluxDBWithTags ⟨0⟩ 1000000000 "http://localhost:8086" "secret" "org" "metrics"
        (some [("env", "prod")]) clockT eventsReconnect).calls ∧
      Call.writePoint gaugeAfterReconnectBare ∈
      (InfluxDB ⟨0⟩ 1000000000 "http://localhost:8086" "secret" "org" "metrics" clockT
        eventsReconnect).calls) ∧
    gaugeAfterReconnect.tags = some [("env", "prod")] ∧
    (gaugeAfterReconnectBare.tags = none ∧ Tags.len gaugeAfterReconnectBare.tags = 0) :=
  ⟨⟨by decide, by decide⟩,
   (tags_fixed ⟨0⟩ 1000000000 "http://localhost:8086" "secret" "org" "metrics"
      (some [("env", "prod")]) clockT eventsReconnect gaugeAfterReconnect).1 (by decide),
   (tags_fixed ⟨0⟩ 1000000000 "http://localhost:8086" "secret" "org" "metrics"
      (some [("env", "prod")]) clockT eventsReconnect gaugeAfterReconnectBare).2 (by decide)⟩

theorem countP_writePoints (q : Call → Bool) (hq : ∀ p, q (Call.writePoint p) = false)
    (pts : List Point) : (pts.map Call.writePoint).countP q = 0 := by
  induction pts with
  | nil => rfl
  | cons p rest ih => simp [List.countP_cons, hq, ih]

/-- A send pass builds no client. -/
theorem send_no_newClient (r : reporter) (view : RegistryView) (clock : Nat → Time) (n : Nat) :
    (send r view clock n).calls.countP Call.isNewClient = 0 := by
  rw [List.countP_eq_zero]
  intro c hc
  simp [send_calls r view clock n c hc]

/-- The loop under the precondition: it keeps running, rebuilds the client once per write
error and flushes once per tick. -/
theorem loop_ok (clock : Nat → Time) (events : List Event) (s : LoopState) (w : WriteAPI)
    (hw : s.rp.wapi = some w) (hrun : s.panic = none)
    (hOk : ∀ view, Event.tick view ∈ events → ∀ e ∈ view s.rp.reg, e.2.percentilesOk = true) :
    (loop clock s events).panic = none ∧
    (loop clock s events).calls.countP Call.isNewClient =
      s.calls.countP Call.isNewClient + events.countP Event.isWriteError ∧
    (loop clock s events).calls.countP Call.isFlush =
      s.calls.countP Call.isFlush + events.countP Event.isTick := by
  induction events generalizing s w with
  | nil => simp [loop, hrun]
  | cons e rest ih =>
    simp only [loop, hrun, hw]
    have hreg : (step clock s e).rp.reg = s.rp.reg := (step_frame clock s e).1
    have hOk2 : ∀ view, Event.tick view ∈ rest →
        ∀ x ∈ view (step clock s e).rp.reg, x.2.percentilesOk = true := by
      intro view hv
      rw [hreg]
      exact hOk view (List.mem_cons_of_mem _ hv)
    cases e with
    | tick view =>
      have hs := send_ok s.rp w hw view clock s.reads (hOk view (by simp))
      have hw2 : (step clock s (Event.tick view)).rp.wapi = some w := hw
      have hrun2 : (step clock s (Event.tick view)).panic = none := by simp [step, hs]
      obtain ⟨h1, h2, h3⟩ := ih (step clock s (Event.tick view)) w hw2 hrun2 hOk2
      refine ⟨h1, ?_, ?_⟩
      · rw [h2]
        simp only [step, List.countP_append, send_no_newClient, List.countP_cons,
          Event.isWriteError]
        simp
      · rw [h3]
        simp only [step, hs, List.countP_append, List.countP_cons, Event.isTick,
          countP_writePoints Call.isFlush (fun _ => rfl), Call.isFlush, List.countP_nil]
        simp
        omega
    | writeError =>
      have hw2 : (step clock s Event.writeError).rp.wapi =
          some ((NewClientWithOptions s.rp.url s.rp.token DefaultOptions).WriteAPI
            s.rp.org s.rp.bucket) := rfl
      have hrun2 : (step clock s Event.writeError).panic = none := rfl
      obtain ⟨h1, h2, h3⟩ := ih (step clock s Event.writeError) _ hw2 hrun2 hOk2
      refine ⟨h1, ?_, ?_⟩
      · rw [h2]
        simp only [step, makeClient, List.countP_append, List.countP_cons, Event.isWriteError,
          Call.isNewClient, List.countP_nil]
        simp
        omega
      · rw [h3]
        simp only [step, makeClient, List.countP_append, List.countP_cons, Event.isTick,
          Call.isFlush, List.countP_nil]
        simp

/-- C7, as amended. In the step function of the control loop over the events tick and write
error, a write-error event causes exactly one makeClient call (one client built) and no send
pass (no WritePoint, no Flush) and leaves the loop running, and a tick event causes exactly one
send pass and no makeClient call.  Hence for every finite event sequence in which the registry
contents seen at every tick meet the percentile-length precondition, the loop, started in a
running state with its write API installed (as construction leaves it), is still running
after the sequence, the number of clients built by the loop equals the number of error events
(no deduplication, no backoff) and the number of send passes, each ending in its Flush, equals
the number of ticks. -/
theorem loop_events (clock : Nat → Time) (s : LoopState) (w : WriteAPI)
    (hw : s.rp.wapi = some w) (hrun : s.panic = none) (events : List Event)
    (hOk : ∀ view, Event.tick view ∈ events → ∀ e ∈ view s.rp.reg, e.2.percentilesOk = true) :
    ((step clock s Event.writeError).rp = (makeClient s.rp).1 ∧
      (step clock s Event.writeError).calls = s.calls ++ (makeClient s.rp).2 ∧
      (makeClient s.rp).2.countP Call.isNewClient = 1 ∧
      (makeClient s.rp).2.countP Call.isWritePoint = 0 ∧
      (makeClient s.rp).2.countP Call.isFlush = 0 ∧
      (step clock s Event.writeError).panic = none) ∧
    (∀ view, (step clock s (Event.tick view)).rp = s.rp ∧
      (step clock s (Event.tick view)).calls = s.calls ++ (send s.rp view clock s.reads).calls ∧
      (step clock s (Event.tick view)).panic = (send s.rp view clock s.reads).panic ∧
      (send s.rp view clock s.reads).calls.countP Call.isNewClient = 0) ∧
    (loop clock s events).panic = none ∧
    (loop clock s events).calls.countP Call.isNewClient =
      s.calls.countP Call.isNewClient + events.countP Event.isWriteError ∧
    (loop clock s events).calls.countP Call.isFlush =
      s.calls.countP Call.isFlush + events.countP Event.isTick := by
  refine ⟨⟨rfl, rfl, rfl, rfl, rfl, rfl⟩, ?_, loop_ok clock events s w hw hrun hOk⟩
  intro view
  exact ⟨rfl, rfl, rfl, send_no_newClient s.rp view clock s.reads⟩

/-- Instance at a tick, a write error and a second tick over the scenario registry: one client
built by the loop, two flushes, and the loop running. -/
theorem loop_events_witness :
    (loopStart.rp.wapi = some wProd ∧ loopStart.panic = none ∧
      ∀ view, Event.tick view ∈ eventsReconnect →
        ∀ e ∈ view loopStart.rp.reg, e.2.percentilesOk = true) ∧
    ((loop clockT loopStart eventsReconnect).panic = none ∧
      (loop clockT loopStart eventsReconnect).calls.countP Call.isNewClient =
        loopStart.calls.countP Call.isNewClient + eventsReconnect.countP Event.isWriteError ∧
      (loop clockT loopStart eventsReconnect).calls.countP Call.isFlush =
        loopStart.calls.countP Call.isFlush + eventsReconnect.countP Event.isTick) ∧
    (eventsReconnect.countP Event.isWriteError = 1 ∧ eventsReconnect.countP Event.isTick = 2 ∧
      (loop clockT loopStart eventsReconnect).calls.countP Call.isNewClient = 2 ∧
      (loop clockT loopStart eventsReconnect).calls.countP Call.isFlush = 2) :=
  have h : ∀ view, Event.tick view ∈ eventsReconnect →
      ∀ e ∈ view loopStart.rp.reg, e.2.percentilesOk = true := by
    intro view hv e he
    have hview : view = viewScenario := by
      simp only [eventsReconnect, List.mem_cons, List.mem_singleton, Event.tick.injEq,
        List.not_mem_nil, or_false] at hv
      rcases hv with h | h | h
      · exact h
      · cases h
      · exact h
    subst hview
    simp only [viewScenario, List.mem_cons, List.mem_singleton, List.not_mem_nil,
      or_false] at he
    rcases he with rfl | rfl <;> rfl
  ⟨⟨rfl, rfl, h⟩, (loop_events clockT loopStart wProd rfl rfl eventsReconnect h).2.2,
   by decide⟩

/-- Without the precondition the counts fail: after construction, a tick over a registry holding a Histogram whose
Percentiles answers with the empty slice makes the send pass panic, which ends the loop; the
write error that follows is never handled, so no client is rebuilt although there is one error
event, and the loop is not back in its running state. -/
theorem loop_events_counterexample :
    InfluxDBWithTags ⟨0⟩ 1000000000 "http://localhost:8086" "secret" "org" "metrics"
        (some [("env", "prod")]) clockT [] = loopStart ∧
    InfluxDBWithTags ⟨0⟩ 1000000000 "http://localhost:8086" "secret" "org" "metrics"
        (some [("env", "prod")]) clockT eventsShort = loop clockT loopStart eventsShort ∧
    (loop clockT loopStart [Event.tick viewShort]).panic = some (Panic.indexOutOfRange 0 0) ∧
    (loop clockT loopStart eventsShort).panic = some (Panic.indexOutOfRange 0 0) ∧
    eventsShort.countP Event.isWriteError = 1 ∧
    (loop clockT loopStart eventsShort).calls.countP Call.isNewClient =
      loopStart.calls.countP Call.isNewClient ∧
    (loop clockT loopStart eventsShort).calls.countP Call.isNewClient ≠
      loopStart.calls.countP Call.isNewClient + eventsShort.countP Event.isWriteError := by
  refine ⟨by decide, by decide, by decide, by decide, by decide, by decide, by decide⟩

/-- The reporter of `InfluxDBWithTags` keeps the constructor's arguments. -/
theorem InfluxDBWithTags_frame (reg : Registry) (d : Duration) (url token org bucket : String)
    (tags : Tags) (clock : Nat → Time) (events : List Event) :
    (InfluxDBWithTags reg d url token org bucket tags clock events).rp.reg = reg ∧
    (InfluxDBWithTags reg d url token org bucket tags clock events).rp.interval = d ∧
    (InfluxDBWithTags reg d url token org bucket tags clock events).rp.url = url ∧
    (InfluxDBWithTags reg d url token org bucket tags clock events).rp.token = token ∧
    (InfluxDBWithTags reg d url token org bucket tags clock events).rp.org = org ∧
    (InfluxDBWithTags reg d url token org bucket tags clock events).rp.bucket = bucket ∧
    (InfluxDBWithTags reg d url token org bucket tags clock events).rp.tags = tags := by
  unfold InfluxDBWithTags run
  simp only
  split
  · exact ⟨rfl, rfl, rfl, rfl, rfl, rfl, rfl⟩
  · exact loop_frame clock _ events

/-- C8. The method makeClient replaces only the client handle: for every reporter state, after
makeClient the fields reg, interval, url, token, org, bucket and tags are unchanged, the new
client is built from exactly (url, token) with the default options, and the new write API is
scoped to exactly (org, bucket).  A send pass changes no reporter field, so in every state
reached from construction by any sequence of tick and write-error events these seven fields
equal the constructor's arguments verbatim. -/
theorem makeClient_replaces_client_only (r : reporter) (reg : Registry) (d : Duration)
    (url token org bucket : String) (tags : Tags) (clock : Nat → Time) (s : LoopState)
    (view : RegistryView) (events : List Event) :
    ((makeClient r).1.reg = r.reg ∧ (makeClient r).1.interval = r.interval ∧
      (makeClient r).1.url = r.url ∧ (makeClient r).1.token = r.token ∧
      (makeClient r).1.org = r.org ∧ (makeClient r).1.bucket = r.bucket ∧
      (makeClient r).1.tags = r.tags) ∧
    (makeClient r).1.client = some { url := r.url, token := r.token, opt := Options.default } ∧
    (makeClient r).1.wapi =
      some { client := { url := r.url, token := r.token, opt := Options.default },
             org := r.org, bucket := r.bucket } ∧
    (makeClient r).2 =
      [Call.newClientWithOptions r.url r.token Options.default,
       Call.writeAPI r.org r.bucket] ∧
    (step clock s (Event.tick view)).rp = s.rp ∧
    ((InfluxDBWithTags reg d url token org bucket tags clock events).rp.reg = reg ∧
      (InfluxDBWithTags reg d url token org bucket tags clock events).rp.interval = d ∧
      (InfluxDBWithTags reg d url token org bucket tags clock events).rp.url = url ∧
      (InfluxDBWithTags reg d url token org bucket tags clock events).rp.token = token ∧
      (InfluxDBWithTags reg d url token org bucket tags clock events).rp.org = org ∧
      (InfluxDBWithTags reg d url token org bucket tags clock events).rp.bucket = bucket ∧
      (InfluxDBWithTags reg d url token org bucket tags clock events).rp.tags = tags) :=
  ⟨makeClient_frame r, rfl, rfl, rfl, rfl,
   InfluxDBWithTags_frame reg d url token org bucket tags clock events⟩

/-- A list is split in one way only at a separator that its right part does not contain. -/
theorem split_at_last (c : Char) (l1 l2 s1 s2 : List Char) (h1 : c ∉ s1) (h2 : c ∉ s2)
    (h : l1 ++ c :: s1 = l2 ++ c :: s2) : l1 = l2 ∧ s1 = s2 := by
  rcases List.append_eq_append_iff.1 h with ⟨a, ha, hb⟩ | ⟨a, ha, hb⟩
  · cases a with
    | nil => simp at ha hb; exact ⟨ha.symm, hb⟩
    | cons x rest =>
      simp only [List.cons_append, List.cons.injEq] at hb
      exact absurd (by rw [hb.2]; simp) h1
  · cases a with
    | nil => simp at ha hb; exact ⟨ha, hb.symm⟩
    | cons x rest =>
      simp only [List.cons_append, List.cons.injEq] at hb
      exact absurd (by rw [hb.2]; simp) h2

theorem Kind.suffix_no_dot (k : Kind) : '.' ∉ k.suffix.data := by
  cases k <;> decide

/-- Names joined to suffixes by a dot collide only when both parts agree. -/
theorem joined_injective (n1 n2 : String) (k1 k2 : Kind) :
    n1 ++ "." ++ k1.suffix = n2 ++ "." ++ k2.suffix ↔ n1 = n2 ∧ k1.suffix = k2.suffix := by
  constructor
  · intro h
    have hd := congrArg String.data h
    simp only [String.data_append] at hd
    rw [List.append_assoc, List.append_assoc] at hd
    obtain ⟨ha, hb⟩ := split_at_last '.' n1.data n2.data k1.suffix.data k2.suffix.data
      k1.suffix_no_dot k2.suffix_no_dot hd
    exact ⟨String.ext ha, String.ext hb⟩
  · rintro ⟨rfl, h⟩
    rw [h]

theorem Kind.suffix_eq_iff (k1 k2 : Kind) :
    k1.suffix = k2.suffix ↔
      k1 = k2 ∨ (k1 = Kind.Gauge ∧ k2 = Kind.GaugeFloat64) ∨
        (k1 = Kind.GaugeFloat64 ∧ k2 = Kind.Gauge) := by
  cases k1 <;> cases k2 <;> decide

/-- C9. The measurement-name mapping never makes two differently named metrics collide: when
the type switch builds the points p1 and p2 for the metrics registered as n1 and n2, arbitrary
strings in which dots are allowed, of the supported kinds k1 and k2, their measurement names
are n1, a dot, the suffix of k1 and n2, a dot, the suffix of k2, and these are equal if and
only if n1 = n2 and the suffixes are equal, the suffixes being count, gauge, gauge, histogram,
meter, timer; the only two kinds sharing a suffix are Gauge and GaugeFloat64. -/
theorem measurement_injective (tags1 tags2 : Tags) (n1 n2 : String) (m1 m2 : Metric)
    (t1 t2 : Time) (p1 p2 : Point)
    (h1 : newPointFor tags1 n1 m1 t1 = .ok (some p1))
    (h2 : newPointFor tags2 n2 m2 t2 = .ok (some p2)) :
    ∃ k1 k2, m1.kind = some k1 ∧ m2.kind = some k2 ∧
      p1.measurement = n1 ++ "." ++ k1.suffix ∧ p2.measurement = n2 ++ "." ++ k2.suffix ∧
      (n1 ++ "." ++ k1.suffix = n2 ++ "." ++ k2.suffix ↔ n1 = n2 ∧ k1.suffix = k2.suffix) ∧
      (p1.measurement = p2.measurement ↔ n1 = n2 ∧ k1.suffix = k2.suffix) ∧
      (k1.suffix = k2.suffix ↔
        k1 = k2 ∨ (k1 = Kind.Gauge ∧ k2 = Kind.GaugeFloat64) ∨
          (k1 = Kind.GaugeFloat64 ∧ k2 = Kind.Gauge)) ∧
      [Kind.Counter.suffix, Kind.Gauge.suffix, Kind.GaugeFloat64.suffix, Kind.Histogram.suffix,
        Kind.Meter.suffix, Kind.Timer.suffix] =
        ["count", "gauge", "gauge", "histogram", "meter", "timer"] := by
  obtain ⟨-, -, k1, hk1, hm1, -, -⟩ := newPointFor_shape tags1 n1 m1 t1 p1 h1
  obtain ⟨-, -, k2, hk2, hm2, -, -⟩ := newPointFor_shape tags2 n2 m2 t2 p2 h2
  refine ⟨k1, k2, hk1, hk2, hm1, hm2, joined_injective n1 n2 k1 k2, ?_,
    Kind.suffix_eq_iff k1 k2, rfl⟩
  rw [hm1, hm2]
  exact joined_injective n1 n2 k1 k2

/-- Instance at a Gauge registered as queue.size and a Counter registered as queue.size.gauge:
the names differ, and so do the measurement names queue.size.gauge and
queue.size.gauge.count. -/
theorem measurement_injective_witness :
    (newPointFor none "queue.size" (Metric.Gauge ⟨7⟩) 0 =
        .ok (some
          { measurement := "queue.size.gauge", tags := none,
            fields := [("value", .int64 7)], ts := 0 }) ∧
      newPointFor none "queue.size.gauge" (Metric.Counter ⟨42⟩) 0 =
        .ok (some
          { measurement := "queue.size.gauge.count", tags := none,
            fields := [("value", .int64 42)], ts := 0 })) ∧
    ∃ k1 k2, (Metric.Gauge ⟨7⟩).kind = some k1 ∧ (Metric.Counter ⟨42⟩).kind = some k2 ∧
      "queue.size.gauge" = "queue.size" ++ "." ++ k1.suffix ∧
      "queue.size.gauge.count" = "queue.size.gauge" ++ "." ++ k2.suffix ∧
      ("queue.size" ++ "." ++ k1.suffix = "queue.size.gauge" ++ "." ++ k2.suffix ↔
        "queue.size" = "queue.size.gauge" ∧ k1.suffix = k2.suffix) ∧
      ("queue.size.gauge" = "queue.size.gauge.count" ↔
        "queue.size" = "queue.size.gauge" ∧ k1.suffix = k2.suffix) ∧
      (k1.suffix = k2.suffix ↔
        k1 = k2 ∨ (k1 = Kind.Gauge ∧ k2 = Kind.GaugeFloat64) ∨
          (k1 = Kind.GaugeFloat64 ∧ k2 = Kind.Gauge)) ∧
      [Kind.Counter.suffix, Kind.Gauge.suffix, Kind.GaugeFloat64.suffix, Kind.Histogram.suffix,
        Kind.Meter.suffix, Kind.Timer.suffix] =
        ["count", "gauge", "gauge", "histogram", "meter", "timer"] :=
  ⟨⟨rfl, rfl⟩,
   measurement_injective none none "queue.size" "queue.size.gauge" (Metric.Gauge ⟨7⟩)
     (Metric.Counter ⟨42⟩) 0 0 _ _ rfl rfl⟩

end influxdb
